import Mathlib

/- Batteries marks rational arithmetic `irreducible`, which blocks `decide`
   on concrete rational computations; restore the default reducibility for
   this file so witnesses evaluate. -/
attribute [local semireducible] Rat.ofScientific Rat.mul Rat.inv Rat.add Rat.sub

/-
  Verification development for the Create-mod block-asset resolver
  (src/api/createLoader.ts, src/api/objLoader.ts, src/api/atlasMerger.ts).

  Modelling conventions (shallow embedding):
  * JS strings are Lean `String`s; all string operations used by the code
    (includes / startsWith / split / replace-first-occurrence / trim /
    whitespace tokenization / toLowerCase) are re-implemented below by
    structural recursion over the character list so that every definition
    is executable and kernel-reducible.
  * JS numbers are rationals (`ℚ`) for geometry, UVs and parsed floats, and
    `Int` for the blockstate rotation fields (which the code manipulates
    with `%`, JS truncating remainder = `Int.tmod`).  `NaN` is modelled as
    `Option.none` exactly where it can arise (float/int parsing of
    malformed text and its propagation through arithmetic).
  * JS objects and `Map`s are insertion-ordered association lists with
    update-in-place semantics (`mapSet`); JS `Set`s are duplicate-free
    lists with append-on-add (`setAdd`).
  * `JSON.parse(JSON.stringify(x))` (deep clone) is the identity on
    immutable Lean values.
-/

namespace SchemLoader

/-! ## JS string primitives -/

def isWs (c : Char) : Bool := c == ' ' || c == '\t' || c == '\r' || c == '\n'

/-- Substring search on character lists (JS `String.prototype.includes`). -/
def strIncludesL : List Char → List Char → Bool
  | _, [] => true
  | [], _ :: _ => false
  | s@(_ :: rest), pat => pat.isPrefixOf s || strIncludesL rest pat

def jsIncludes (s sub : String) : Bool := strIncludesL s.data sub.data

def jsStartsWith (s p : String) : Bool := p.data.isPrefixOf s.data

def jsEndsWith (s p : String) : Bool := p.data.isSuffixOf s.data

/-- JS `s.split(sep)` for a single-character separator. -/
def splitOnCharL (sep : Char) : List Char → List (List Char)
  | [] => [[]]
  | c :: rest =>
    let r := splitOnCharL sep rest
    if c == sep then [] :: r
    else
      match r with
      | h :: t => (c :: h) :: t
      | [] => [[c]]

def jsSplitChar (s : String) (sep : Char) : List String :=
  (splitOnCharL sep s.data).map String.mk

/-- JS `s.split(sep, limit)`. -/
def jsSplitCharLimit (s : String) (sep : Char) (n : Nat) : List String :=
  (jsSplitChar s sep).take n

/-- JS `s.substring(0, s.lastIndexOf(sep))` for sep = '/';
    yields `""` when the string has no '/'. -/
def dirOf (s : String) : String :=
  let ps := jsSplitChar s '/'
  if ps.length ≤ 1 then "" else String.intercalate "/" ps.dropLast

/-- JS `s.substring(s.lastIndexOf(sep) + 1)` for sep = '/'. -/
def lastComp (s : String) : String := (jsSplitChar s '/').getLastD s

/-- JS `s.replace(pat, rep)` for string patterns: first occurrence only. -/
def replaceFirstL (pat rep : List Char) : List Char → List Char
  | [] => if pat.isEmpty then rep else []
  | c :: rest =>
    if pat.isPrefixOf (c :: rest) then rep ++ (c :: rest).drop pat.length
    else c :: replaceFirstL pat rep rest

def jsReplaceFirst (s pat rep : String) : String :=
  String.mk (replaceFirstL pat.data rep.data s.data)

def jsTrim (s : String) : String :=
  String.mk (((s.data.dropWhile isWs).reverse.dropWhile isWs).reverse)

/-- JS `s.trim().split(/\s+/)`: split on runs of whitespace.  (For an
    empty/whitespace-only input JS yields `[""]`, we yield `[]`; both make
    every dispatch on the first token fall through, so the fold steps are
    extensionally equal.) -/
def splitWsAux : List Char → List Char → List String
  | [], acc => if acc.isEmpty then [] else [String.mk acc.reverse]
  | c :: rest, acc =>
    if isWs c then
      if acc.isEmpty then splitWsAux rest []
      else String.mk acc.reverse :: splitWsAux rest []
    else splitWsAux rest (c :: acc)

def jsTokens (s : String) : List String := splitWsAux s.data []

def jsToLower (s : String) : String := String.mk (s.data.map Char.toLower)

def strDrop (s : String) (n : Nat) : String := String.mk (s.data.drop n)

/-! ## JS number parsing (`parseFloat` / `parseInt`), NaN = `none` -/

def digitVal (c : Char) : Option Nat :=
  if '0' ≤ c ∧ c ≤ '9' then some (c.toNat - '0'.toNat) else none

def takeDigits : List Char → (List Nat × List Char)
  | [] => ([], [])
  | c :: rest =>
    match digitVal c with
    | some d => let (ds, r) := takeDigits rest; (d :: ds, r)
    | none => ([], c :: rest)

def natOfDigits (ds : List Nat) : Nat := ds.foldl (fun a d => a * 10 + d) 0

/-- Sign prefix: returns (sign, rest). -/
def takeSign : List Char → (Int × List Char)
  | '-' :: rest => (-1, rest)
  | '+' :: rest => (1, rest)
  | l => (1, l)

/-- Exponent suffix `e`/`E` sign digits; consumed only when well formed. -/
def takeExp (l : List Char) : Int :=
  match l with
  | c :: rest =>
    if c == 'e' || c == 'E' then
      let (sg, r) := takeSign rest
      let (ds, _) := takeDigits r
      if ds.isEmpty then 0 else sg * (natOfDigits ds : Int)
    else 0
  | [] => 0

/-- JS `parseFloat`: longest numeric prefix after whitespace; `none` = NaN.
    (The `Infinity` literal is not modelled; it does not occur in the
    mesh inputs this code parses.) -/
def parseFloatQ (s : String) : Option ℚ :=
  let l := s.data.dropWhile isWs
  let (sg, l1) := takeSign l
  let (ds1, l2) := takeDigits l1
  let (ds2, l3) :=
    match l2 with
    | '.' :: r => takeDigits r
    | _ => ([], l2)
  if ds1.isEmpty ∧ ds2.isEmpty then none
  else
    let mant : ℚ := (natOfDigits (ds1 ++ ds2) : ℚ) / ((10 : ℚ) ^ ds2.length)
    let e : Int := takeExp l3
    some ((sg : ℚ) * mant * (10 : ℚ) ^ e)

/-- JS `parseInt` (radix 10): `none` = NaN. -/
def parseIntJS (s : String) : Option Int :=
  let l := s.data.dropWhile isWs
  let (sg, l1) := takeSign l
  let (ds, _) := takeDigits l1
  if ds.isEmpty then none else some (sg * (natOfDigits ds : Int))

/-! ## Insertion-ordered maps and sets -/

def mapHas (m : List (String × α)) (k : String) : Bool := m.any (fun p => p.1 == k)

def mapGet? (m : List (String × α)) (k : String) : Option α :=
  (m.find? (fun p => p.1 == k)).map Prod.snd

/-- JS object/`Map` assignment: update in place if the key exists (keeping
    its position), otherwise append. -/
def mapSet (m : List (String × α)) (k : String) (v : α) : List (String × α) :=
  if mapHas m k then m.map (fun p => if p.1 == k then (k, v) else p)
  else m ++ [(k, v)]

/-- JS `Set.add`: append if absent. -/
def setAdd (s : List String) (k : String) : List String :=
  if s.contains k then s else s ++ [k]

/-- JS object spread `{...a, ...b}`: `a`'s keys in order (values overridden
    by `b` where shared), then `b`'s new keys in `b`'s order. -/
def spreadMerge (a b : List (String × String)) : List (String × String) :=
  b.foldl (fun acc p => mapSet acc p.1 p.2) a

/-- JS truthiness for an optional string (`undefined` and `""` are falsy). -/
def truthyS : Option String → Bool
  | some s => !s.isEmpty
  | none => false

/-- `((v % 360) + 360) % 360` on a JS number (here integral): JS `%` is the
    truncating remainder, `Int.tmod`. -/
def jsNorm360 (v : Int) : Int := Int.tmod (Int.tmod v 360 + 360) 360

def jsBoolStr (b : Bool) : String := if b then "true" else "false"

end SchemLoader

namespace SchemLoader

/-! ## External mesh importer (objLoader.ts, `parseObj`)

    deepslate's `Vector`, `Vertex`, `Quad`, `Mesh` are modelled with just
    the payload this code constructs (positions, flipped UVs, normals; the
    constant color `[1,1,1]` and textureLimit `[0,0,1,1]` arguments are
    kept as fields).  A JS `undefined` position/uv/normal (bad 1-based
    index or NaN index) is `none`.  The only statement in `parseObj` that
    can throw is the member access `uv![0]!` when `uvs[vtIdx]` is
    `undefined`; this is modelled with `Except Unit`. -/

abbrev ObjVec := Option ℚ × Option ℚ × Option ℚ

structure ObjVertex where
  pos : Option ObjVec
  color : ℚ × ℚ × ℚ
  texture : Option ℚ × Option ℚ
  textureLimit : ℚ × ℚ × ℚ × ℚ
  normal : Option ObjVec
deriving DecidableEq, Repr

structure ObjQuad where
  v1 : ObjVertex
  v2 : ObjVertex
  v3 : ObjVertex
  v4 : ObjVertex
deriving DecidableEq, Repr

structure ObjMesh where
  quads : List ObjQuad
deriving DecidableEq, Repr

def ObjMesh.isEmpty (m : ObjMesh) : Bool := m.quads.isEmpty

structure ObjMeshPart where
  mesh : ObjMesh
  texture : String
deriving DecidableEq, Repr

/-- JS `Math.abs` through NaN. -/
def absQ? (x : Option ℚ) : Option ℚ := x.map abs

/-- JS `Math.max` of two values: NaN-poisoning. -/
def maxQ? : Option ℚ → Option ℚ → Option ℚ
  | some a, some b => some (max a b)
  | _, _ => none

/-- State of the preliminary scale-detection pass. -/
structure ScaleSt where
  checking : Bool
  maxCoord : Option ℚ
deriving DecidableEq, Repr

def scaleStep (st : ScaleSt) (line : String) : ScaleSt :=
  match jsTokens line with
  | [] => st
  | t :: rest =>
    if t == "o" || t == "g" then
      let name := rest.getD 0 ""
      { st with checking := !(jsStartsWith name "Bounding") }
    else if t == "v" && st.checking then
      let x := absQ? (parseFloatQ (rest.getD 0 ""))
      let y := absQ? (parseFloatQ (rest.getD 1 ""))
      let z := absQ? (parseFloatQ (rest.getD 2 ""))
      { st with maxCoord := maxQ? (maxQ? (maxQ? st.maxCoord x) y) z }
    else st

def objMaxCoord (lines : List String) : Option ℚ :=
  (lines.foldl scaleStep { checking := true, maxCoord := some 0 }).maxCoord

/-- `const scale = maxCoord > 0 && maxCoord <= 4.0 ? 16.0 : 1.0`
    (both comparisons are false on NaN). -/
def objScale (lines : List String) : ℚ :=
  match objMaxCoord lines with
  | some m => if 0 < m ∧ m ≤ 4 then 16 else 1
  | none => 1

/-- State of the main parsing pass. -/
structure ObjSt where
  positions : List ObjVec
  uvs : List (Option ℚ × Option ℚ)
  normals : List ObjVec
  parts : List ObjMeshPart
  currentMaterial : String
  currentMesh : ObjMesh
  ignore : Bool
deriving DecidableEq, Repr

def objInit : ObjSt :=
  { positions := [], uvs := [], normals := [], parts := [],
    currentMaterial := "particle", currentMesh := ⟨[]⟩, ignore := false }

def flushPart (st : ObjSt) : ObjSt :=
  if !st.ignore && !st.currentMesh.isEmpty then
    { st with parts := st.parts ++ [⟨st.currentMesh, st.currentMaterial⟩],
              currentMesh := ⟨[]⟩ }
  else st

/-- JS array indexing with a possibly-NaN / out-of-range index:
    `undefined` = `none`. -/
def idxJS (l : List α) (i : Option Int) : Option α :=
  match i with
  | some n => if 0 ≤ n then l[n.toNat]? else none
  | none => none

/-- One vertex reference `v/vt/vn` of a face line.  The `uv![0]!` member
    access throws a TypeError when `uvs[vtIdx]` is `undefined`. -/
def faceVertex (st : ObjSt) (ref : String) : Except Unit ObjVertex :=
  let indices := jsSplitChar ref '/'
  let vIdx := (parseIntJS (indices.getD 0 "")).map (· - 1)
  let vtRaw := indices.getD 1 ""
  let vnRaw := indices.getD 2 ""
  let pos := idxJS st.positions vIdx
  let norm :=
    if vnRaw.isEmpty then none
    else idxJS st.normals ((parseIntJS vnRaw).map (· - 1))
  if vtRaw.isEmpty then
    .ok { pos := pos, color := (1, 1, 1), texture := (some 0, some 0),
          textureLimit := (0, 0, 1, 1), normal := norm }
  else
    match idxJS st.uvs ((parseIntJS vtRaw).map (· - 1)) with
    | some uv =>
      .ok { pos := pos, color := (1, 1, 1), texture := uv,
            textureLimit := (0, 0, 1, 1), normal := norm }
    | none => .error ()

/-- Fan triangulation: `for (i = 2; i < n; i++) push Quad(v0, v[i-1], v[i], v[i])`. -/
def fanQuads (v0 : ObjVertex) : ObjVertex → List ObjVertex → List ObjQuad
  | _, [] => []
  | vprev, v :: rest => ⟨v0, vprev, v, v⟩ :: fanQuads v0 v rest

/-- One line of the main pass. -/
def objStep (scale : ℚ) (st : ObjSt) (line : String) : Except Unit ObjSt :=
  match jsTokens line with
  | [] => .ok st
  | ty :: rest =>
    if ty == "o" || ty == "g" then
      let st := flushPart st
      let name := rest.getD 0 ""
      .ok { st with ignore := jsStartsWith name "Bounding" }
    else if ty == "v" then
      .ok { st with positions := st.positions ++
              [((parseFloatQ (rest.getD 0 "")).map (· * scale),
                (parseFloatQ (rest.getD 1 "")).map (· * scale),
                (parseFloatQ (rest.getD 2 "")).map (· * scale))] }
    else if ty == "vt" then
      .ok { st with uvs := st.uvs ++
              [(parseFloatQ (rest.getD 0 ""),
                (parseFloatQ (rest.getD 1 "")).map (fun v => 1 - v))] }
    else if ty == "vn" then
      .ok { st with normals := st.normals ++
              [(parseFloatQ (rest.getD 0 ""),
                parseFloatQ (rest.getD 1 ""),
                parseFloatQ (rest.getD 2 ""))] }
    else if ty == "usemtl" then
      let st := flushPart st
      .ok { st with currentMaterial := rest.getD 0 "" }
    else if ty == "f" && !st.ignore then
      (rest.mapM (faceVertex st)).map fun vs =>
        match vs with
        | v0 :: v1 :: vrest =>
          { st with currentMesh := ⟨st.currentMesh.quads ++ fanQuads v0 v1 vrest⟩ }
        | _ => st
    else .ok st

def parseObj (objData : String) : Except Unit (List ObjMeshPart) := do
  let lines := jsSplitChar objData '\n'
  let scale := objScale lines
  let st ← lines.foldlM (objStep scale) objInit
  return (flushPart st).parts

end SchemLoader

namespace SchemLoader

/-! ## Spec-side characterization of the scale-detection pass -/

/-- Spec-side: absolute values of all coordinates of `v` lines that are not
    inside a `Bounding`-named sub-object group (the exclusion flag starts
    true and toggles on `o`/`g` lines). -/
def nonExcludedVertexAbs : Bool → List String → List (Option ℚ)
  | _, [] => []
  | checking, line :: rest =>
    match jsTokens line with
    | [] => nonExcludedVertexAbs checking rest
    | t :: args =>
      if t == "o" || t == "g" then
        nonExcludedVertexAbs (!(jsStartsWith (args.getD 0 "") "Bounding")) rest
      else if t == "v" && checking then
        absQ? (parseFloatQ (args.getD 0 "")) ::
        absQ? (parseFloatQ (args.getD 1 "")) ::
        absQ? (parseFloatQ (args.getD 2 "")) ::
        nonExcludedVertexAbs checking rest
      else nonExcludedVertexAbs checking rest

/-- Spec-side maximum of a coordinate list, seeded with 0 as in the code. -/
def specMaxAbs (l : List (Option ℚ)) : Option ℚ := l.foldl maxQ? (some 0)

theorem scaleStep_foldl_eq (lines : List String) :
    ∀ (checking : Bool) (m : Option ℚ),
      (lines.foldl scaleStep ⟨checking, m⟩).maxCoord
        = (nonExcludedVertexAbs checking lines).foldl maxQ? m := by
  induction lines with
  | nil => intro checking m; rfl
  | cons line rest ih =>
    intro checking m
    simp only [List.foldl, nonExcludedVertexAbs, scaleStep]
    cases h : jsTokens line with
    | nil => exact ih checking m
    | cons t args =>
      by_cases h1 : (t == "o" || t == "g") = true
      · simp only [h1, if_true]
        exact ih _ m
      · simp only [h1, if_false]
        by_cases h2 : (t == "v" && checking) = true
        · simp only [h2, if_true, List.foldl]
          exact ih checking _
        · simp only [h2, if_false]
          exact ih checking m

theorem objMaxCoord_eq_specMax (lines : List String) :
    objMaxCoord lines = specMaxAbs (nonExcludedVertexAbs true lines) := by
  simpa [objMaxCoord, specMaxAbs] using scaleStep_foldl_eq lines true (some 0)

/-- Claim C7: `parseObj` multiplies every vertex position by 16 exactly when
    the maximum absolute coordinate over all vertices outside
    `Bounding`-named sub-object groups is > 0 and ≤ 4.0; in every other
    case (including NaN coordinates or no non-excluded vertices, where the
    seeded maximum stays 0) the scale is 1 and the `v` step emits the
    parsed coordinates unchanged. -/
theorem parseObj_scale_detection (objData : String) (lines : List String)
    (hl : lines = jsSplitChar objData '\n') :
    (objScale lines = 16 ↔
        ∃ m, specMaxAbs (nonExcludedVertexAbs true lines) = some m ∧ 0 < m ∧ m ≤ 4)
    ∧ (objScale lines = 16 ∨ objScale lines = 1)
    ∧ (∀ (st st' : ObjSt) (line : String) (args : List String),
        jsTokens line = "v" :: args →
        objScale lines = 1 →
        objStep (objScale lines) st line = .ok st' →
        st'.positions = st.positions ++
          [(parseFloatQ (args.getD 0 ""), parseFloatQ (args.getD 1 ""),
            parseFloatQ (args.getD 2 ""))])
    ∧ (∀ (st st' : ObjSt) (line : String) (args : List String),
        jsTokens line = "v" :: args →
        objScale lines = 16 →
        objStep (objScale lines) st line = .ok st' →
        st'.positions = st.positions ++
          [((parseFloatQ (args.getD 0 "")).map (· * 16),
            (parseFloatQ (args.getD 1 "")).map (· * 16),
            (parseFloatQ (args.getD 2 "")).map (· * 16))]) := by
  refine ⟨?_, ?_, ?_, ?_⟩
  · rw [objScale, objMaxCoord_eq_specMax]
    cases h : specMaxAbs (nonExcludedVertexAbs true lines) with
    | none =>
      constructor
      · intro h16; exact absurd h16 (by norm_num)
      · rintro ⟨m, hm, _⟩; exact absurd hm (by simp)
    | some m =>
      by_cases hc : 0 < m ∧ m ≤ 4
      · simp only [hc, if_true]
        exact ⟨fun _ => ⟨m, rfl, hc⟩, fun _ => rfl⟩
      · simp only [hc, if_false]
        constructor
        · intro h1; exact absurd h1 (by norm_num)
        · rintro ⟨m', hm', hc'⟩
          cases hm'; exact absurd hc' hc
  · rw [objScale, objMaxCoord_eq_specMax]
    cases h : specMaxAbs (nonExcludedVertexAbs true lines) with
    | none => right; rfl
    | some m =>
      by_cases hc : 0 < m ∧ m ≤ 4
      · left; simp [hc]
      · right; simp [hc]
  · intro st st' line args htok h1 hstep
    rw [objStep, htok] at hstep
    rw [h1] at hstep
    simp only [show (("v" == "o") || ("v" == "g")) = false from rfl, if_false,
      show ("v" == "v") = true from rfl, Bool.true_and, if_true] at hstep
    cases hstep
    simp [mul_one, Option.map_id']
  · intro st st' line args htok h16 hstep
    rw [objStep, htok] at hstep
    rw [h16] at hstep
    simp only [show (("v" == "o") || ("v" == "g")) = false from rfl, if_false,
      show ("v" == "v") = true from rfl, Bool.true_and, if_true] at hstep
    cases hstep
    rfl

/-- Witness input for the scale-detection claim: coordinates within 4, so
    the pass detects meters and scales by 16. -/
def objScaleSample : String := "o BoundingHelper\nv 100 0 0\no body\nv 1 2 0.5\nf 1 1 1"

theorem parseObj_scale_detection_witness :
    objScale (jsSplitChar objScaleSample '\n') = 16
    ∧ (∃ m, specMaxAbs (nonExcludedVertexAbs true (jsSplitChar objScaleSample '\n')) = some m
          ∧ 0 < m ∧ m ≤ 4) := by
  have h := parseObj_scale_detection objScaleSample (jsSplitChar objScaleSample '\n') rfl
  exact ⟨by decide, h.1.mp (by decide)⟩

end SchemLoader

namespace SchemLoader

theorem fanQuads_length (v0 : ObjVertex) :
    ∀ (vprev : ObjVertex) (rest : List ObjVertex),
      (fanQuads v0 vprev rest).length = rest.length := by
  intro vprev rest
  induction rest generalizing vprev with
  | nil => rfl
  | cons v vs ih => simp [fanQuads, ih]

theorem mapM_ok_length (f : α → Except ε β) :
    ∀ (l : List α) (l' : List β), l.mapM f = .ok l' → l'.length = l.length := by
  intro l
  induction l with
  | nil => intro l' h; cases h; rfl
  | cons a as ih =>
    intro l' h
    rw [List.mapM_cons] at h
    cases hf : f a with
    | error e => rw [hf] at h; exact absurd h (by simp [Bind.bind, Except.bind])
    | ok b =>
      rw [hf] at h
      cases hm : as.mapM f with
      | error e =>
        rw [hm] at h
        exact absurd h (by simp [Bind.bind, Except.bind, Pure.pure, Except.pure])
      | ok bs =>
        rw [hm] at h
        simp only [Bind.bind, Except.bind, Pure.pure, Except.pure] at h
        cases h
        simp [ih bs hm]

/-- The synthetic mesh input of the round-trip scenario: one triangle face
    under material `matA`, one quad face under material `matB`. -/
def objSample : String :=
  "usemtl matA\nv 0 0 0\nv 1 0 0\nv 0 1 0\nv 1 1 0\nvt 0 0.25\nvt 1 0.25\nvt 0 1\nvt 1 1\nf 1/1 2/2 3/3\nusemtl matB\nf 1/1 2/2 4/4 3/3\n"

/-- Claim C6: every non-excluded face line with n vertex references emits
    exactly n-2 triangles (fan triangulation, vertex 0 paired with each
    consecutive edge); the `vt` step emits V as 1 - sourceV; and on the
    synthetic sample input the importer returns 1 triangle for the first
    material and 2 for the second, with V = 1 - 0.25 = 3/4 on the first
    vertex. -/
theorem parseObj_fan_triangulation_vflip :
    (∀ (scale : ℚ) (st st' : ObjSt) (line : String) (refs : List String),
        jsTokens line = "f" :: refs →
        st.ignore = false →
        objStep scale st line = .ok st' →
        st'.currentMesh.quads.length = st.currentMesh.quads.length + (refs.length - 2))
    ∧ (∀ (scale : ℚ) (st st' : ObjSt) (line : String) (a b : String) (rest : List String),
        jsTokens line = "vt" :: a :: b :: rest →
        objStep scale st line = .ok st' →
        st'.uvs = st.uvs ++ [(parseFloatQ a, (parseFloatQ b).map (fun v => 1 - v))])
    ∧ (parseObj objSample).toOption.map
          (fun ps => ps.map fun (p : ObjMeshPart) => (p.texture, p.mesh.quads.length))
        = some [("matA", 1), ("matB", 2)]
    ∧ (parseObj objSample).toOption.map
          (fun ps => (ps.headD ⟨⟨[]⟩, ""⟩).mesh.quads.map fun (q : ObjQuad) => q.v1.texture)
        = some [(some 0, some (3/4 : ℚ))] := by
  refine ⟨?_, ?_, ?_, ?_⟩
  · intro scale st st' line refs htok hig hstep
    rw [objStep, htok, hig] at hstep
    simp only [show (("f" == "o") || ("f" == "g")) = false from rfl,
      show ("f" == "v") = false from rfl, show ("f" == "vt") = false from rfl,
      show ("f" == "vn") = false from rfl, show ("f" == "usemtl") = false from rfl,
      show ("f" == "f") = true from rfl, Bool.not_false, Bool.true_and,
      if_false, if_true, Bool.false_eq_true] at hstep
    cases hm : refs.mapM (faceVertex st) with
    | error e => rw [hm] at hstep; exact absurd hstep (by simp [Except.map])
    | ok vs =>
      rw [hm] at hstep
      simp only [Except.map] at hstep
      have hlen := mapM_ok_length (faceVertex st) refs vs hm
      cases hstep
      match vs, hlen with
      | [], hlen => simp [← hlen]
      | [v], hlen => simp [← hlen]
      | v0 :: v1 :: vrest, hlen =>
        simp only [List.length_append, fanQuads_length, ← hlen]
        simp only [List.length_cons]
        omega
  · intro scale st st' line a b rest htok hstep
    rw [objStep, htok] at hstep
    simp only [show (("vt" == "o") || ("vt" == "g")) = false from rfl,
      show ("vt" == "v") = false from rfl, show ("vt" == "vt") = true from rfl,
      if_false, if_true, Bool.false_eq_true] at hstep
    cases hstep
    rfl
  · decide
  · decide

theorem parseObj_fan_triangulation_vflip_witness :
    jsTokens "f 1 2 4 3" = "f" :: ["1", "2", "4", "3"]
    ∧ ∃ st' : ObjSt, objStep 1 objInit "f 1 2 4 3" = .ok st'
        ∧ st'.currentMesh.quads.length
            = objInit.currentMesh.quads.length + (["1", "2", "4", "3"].length - 2) := by
  refine ⟨by decide, ?_⟩
  have hok : (objStep 1 objInit "f 1 2 4 3").isOk = true := by decide
  cases hstep : objStep 1 objInit "f 1 2 4 3" with
  | error e => rw [hstep] at hok; simp [Except.isOk, Except.toBool] at hok
  | ok st' =>
    exact ⟨st', rfl,
      parseObj_fan_triangulation_vflip.1 1 objInit st' "f 1 2 4 3"
        ["1", "2", "4", "3"] (by decide) (by decide) hstep⟩

end SchemLoader

namespace SchemLoader

/-! ## Texture atlas merger (atlasMerger.ts, `mergeAtlases`)

    Only the zero-new-textures branch manipulates data we can model (canvas
    drawing is outside the data model); its observable output is the
    id → normalized-UV-rectangle map of the returned `TextureAtlas`. -/

/-- Modelled from the spec: deepslate's `upperPowerOfTwo` (external library),
    "rounded up to the next power of two": the least power of two ≥ `n`. -/
def upperPowerOfTwo (n : Nat) : Nat :=
  2 ^ (((List.range (n + 1)).find? (fun k => n ≤ 2 ^ k)).getD 0)

theorem upperPowerOfTwo_pos (n : Nat) : 0 < upperPowerOfTwo n :=
  Nat.pos_pow_of_pos _ (by norm_num)

/-- Modelled from usage: deepslate `Identifier.create(id).toString()` applies
    the default `minecraft` namespace (the misode UV map keys carry none). -/
def identifierCreateStr (id : String) : String := "minecraft:" ++ id

abbrev UvRect := ℚ × ℚ × ℚ × ℚ

/-- One entry of the UV re-normalization (atlasMerger.ts lines 25-27):
    `dv2 = (du !== dv && id.startsWith('block/')) ? du : dv`, rectangle
    `[u/size, v/size, (u+du)/size, (v+dv2)/size]`. -/
def mergeUvEntry (size : ℚ) (id : String) (r : UvRect) : UvRect :=
  let (u, v, du, dv) := r
  let dv2 := if du ≠ dv ∧ jsStartsWith id "block/" then du else dv
  (u / size, v / size, (u + du) / size, (v + dv2) / size)

/-- The zero-new-textures branch of `mergeAtlases` (atlasMerger.ts 10-31):
    square canvas of the next power of two of the base image's larger side,
    every UV map entry re-normalized under the `minecraft:`-qualified id.
    (The `if (!vanillaUvMap[id])` guard never fires for an association-list
    input, every key has a value.) -/
def mergeAtlasesEmptyUv (w h : Nat) (vanillaUvMap : List (String × UvRect)) :
    List (String × UvRect) :=
  let size : ℚ := (upperPowerOfTwo (max w h) : ℚ)
  vanillaUvMap.foldl
    (fun idMap p => mapSet idMap (identifierCreateStr p.1) (mergeUvEntry size p.1 p.2)) []

/-- Claim C4 (counterexample): for the `block/`-namespaced id `block/foo`
    with declared pixel rectangle 16 × 32 on a 16 × 16 base image, the
    merged rectangle is [0,0,1,1]: output width/height ratio 1, input
    declared ratio 1/2.  Stated by cross-multiplication (width·dv ≠
    height·du), a gap no floating-point tolerance covers. -/
theorem mergeAtlases_ratio_counterexample :
    mergeAtlasesEmptyUv 16 16 [("block/foo", (0, 0, 16, 32))]
      = [("minecraft:block/foo", (0, 0, 1, 1))]
    ∧ ((1 : ℚ) - 0) * 32 ≠ ((1 : ℚ) - 0) * 16 := by
  constructor
  · decide
  · norm_num

/-- Claim C4 (amended): in a zero-new-textures merge, an entry whose id is
    not under `block/` or whose declared width equals its height keeps its
    width/height ratio exactly (cross-multiplied form, exact in ℚ); for a
    `block/` id with differing width and height the height component is
    substituted by the width (the documented upstream quirk), so the output
    rectangle is square (ratio 1). -/
theorem mergeAtlases_ratio_amended (w h : Nat) (id : String) (u v du dv : ℚ) :
    (jsStartsWith id "block/" = false ∨ du = dv →
      ((mergeUvEntry ((upperPowerOfTwo (max w h) : ℚ)) id (u, v, du, dv)).2.2.1
          - (mergeUvEntry ((upperPowerOfTwo (max w h) : ℚ)) id (u, v, du, dv)).1) * dv
        = ((mergeUvEntry ((upperPowerOfTwo (max w h) : ℚ)) id (u, v, du, dv)).2.2.2
          - (mergeUvEntry ((upperPowerOfTwo (max w h) : ℚ)) id (u, v, du, dv)).2.1) * du)
    ∧ (jsStartsWith id "block/" = true → du ≠ dv →
      (mergeUvEntry ((upperPowerOfTwo (max w h) : ℚ)) id (u, v, du, dv)).2.2.1
          - (mergeUvEntry ((upperPowerOfTwo (max w h) : ℚ)) id (u, v, du, dv)).1
        = (mergeUvEntry ((upperPowerOfTwo (max w h) : ℚ)) id (u, v, du, dv)).2.2.2
          - (mergeUvEntry ((upperPowerOfTwo (max w h) : ℚ)) id (u, v, du, dv)).2.1) := by
  have hs : ((upperPowerOfTwo (max w h) : ℚ)) ≠ 0 := by
    exact_mod_cast (upperPowerOfTwo_pos (max w h)).ne'
  constructor
  · intro hcase
    have hdv2 : (if du ≠ dv ∧ jsStartsWith id "block/" then du else dv) = dv := by
      rcases hcase with hnb | heq
      · rw [if_neg]; rintro ⟨_, hb⟩; rw [hnb] at hb; exact Bool.false_ne_true hb
      · rw [if_neg]; rintro ⟨hne, _⟩; exact hne heq
    simp only [mergeUvEntry, hdv2]
    field_simp
    ring
  · intro hb hne
    have hdv2 : (if du ≠ dv ∧ jsStartsWith id "block/" then du else dv) = du := by
      rw [if_pos ⟨hne, hb⟩]
    simp only [mergeUvEntry, hdv2]
    field_simp

theorem mergeAtlases_ratio_amended_witness :
    (jsStartsWith "item/foo" "block/" = false ∨ (16 : ℚ) = 32)
    ∧ ((mergeUvEntry ((upperPowerOfTwo (max 16 16) : ℚ)) "item/foo" (0, 0, 16, 32)).2.2.1
          - (mergeUvEntry ((upperPowerOfTwo (max 16 16) : ℚ)) "item/foo" (0, 0, 16, 32)).1) * 32
        = ((mergeUvEntry ((upperPowerOfTwo (max 16 16) : ℚ)) "item/foo" (0, 0, 16, 32)).2.2.2
          - (mergeUvEntry ((upperPowerOfTwo (max 16 16) : ℚ)) "item/foo" (0, 0, 16, 32)).2.1) * 16 := by
  have h := (mergeAtlases_ratio_amended 16 16 "item/foo" 0 0 16 32).1 (Or.inl (by decide))
  exact ⟨Or.inl (by decide), h⟩

end SchemLoader

namespace SchemLoader

/-! ## Geometry data model (types/assets.ts)

    `RawModelElement` / `RawBlockModel` are recursive (element `children`,
    composite model `children`), hence inductives with accessor functions.
    Unused descriptor fields never read or written by the loader
    (`ambientocclusion`, `render_type`, root `particle`, face `cullface`
    payloads are kept; `display` is an opaque payload of which only
    presence is observed, modelled as `Option Unit`). -/

structure Vec3 where
  x : ℚ
  y : ℚ
  z : ℚ
deriving DecidableEq, Repr

structure RawModelFace where
  uv : Option (ℚ × ℚ × ℚ × ℚ)
  texture : String
  cullface : Option String
  rotation : Option Int
  tintindex : Option Int
deriving DecidableEq, Repr

structure ElemRot where
  origin : Vec3
  axis : String
  angle : ℚ
  rescale : Option Bool
deriving DecidableEq, Repr

inductive RawModelElement where
  | mk (name : Option String) (efrom eto : Vec3) (rotation : Option ElemRot)
       (faces : List (String × RawModelFace)) (shade : Option Bool)
       (children : List RawModelElement)

def RawModelElement.name : RawModelElement → Option String
  | .mk n _ _ _ _ _ _ => n

def RawModelElement.efrom : RawModelElement → Vec3
  | .mk _ f _ _ _ _ _ => f

def RawModelElement.eto : RawModelElement → Vec3
  | .mk _ _ t _ _ _ _ => t

def RawModelElement.rotation : RawModelElement → Option ElemRot
  | .mk _ _ _ r _ _ _ => r

def RawModelElement.faces : RawModelElement → List (String × RawModelFace)
  | .mk _ _ _ _ fs _ _ => fs

def RawModelElement.shade : RawModelElement → Option Bool
  | .mk _ _ _ _ _ s _ => s

def RawModelElement.children : RawModelElement → List RawModelElement
  | .mk _ _ _ _ _ _ c => c

def RawModelElement.setFaces : RawModelElement → List (String × RawModelFace) → RawModelElement
  | .mk n f t r _ s c, fs => .mk n f t r fs s c

/-- An entry of a model's `elements` array: an authored cuboid or an
    OBJ-importer mesh part (`'from' in e` distinguishes them). -/
inductive ModelElem where
  | cub (e : RawModelElement)
  | obj (p : ObjMeshPart)

inductive RawBlockModel where
  | mk (parent : Option String) (textures : List (String × String))
       (elements : Option (List ModelElem)) (loader : Option String)
       (model : Option String) (display : Option Unit)
       (children : Option (List (String × RawBlockModel)))

def RawBlockModel.parent : RawBlockModel → Option String
  | .mk p _ _ _ _ _ _ => p

def RawBlockModel.textures : RawBlockModel → List (String × String)
  | .mk _ t _ _ _ _ _ => t

def RawBlockModel.elements : RawBlockModel → Option (List ModelElem)
  | .mk _ _ e _ _ _ _ => e

def RawBlockModel.loader : RawBlockModel → Option String
  | .mk _ _ _ l _ _ _ => l

def RawBlockModel.model : RawBlockModel → Option String
  | .mk _ _ _ _ m _ _ => m

def RawBlockModel.display : RawBlockModel → Option Unit
  | .mk _ _ _ _ _ d _ => d

def RawBlockModel.children : RawBlockModel → Option (List (String × RawBlockModel))
  | .mk _ _ _ _ _ _ c => c

def RawBlockModel.setElements : RawBlockModel → Option (List ModelElem) → RawBlockModel
  | .mk p t _ l m d c, e => .mk p t e l m d c

def RawBlockModel.setTextures : RawBlockModel → List (String × String) → RawBlockModel
  | .mk p _ e l m d c, t => .mk p t e l m d c

def RawBlockModel.setChildren : RawBlockModel → Option (List (String × RawBlockModel)) → RawBlockModel
  | .mk p t e l m d _, c => .mk p t e l m d c

def RawBlockModel.setDisplay : RawBlockModel → Option Unit → RawBlockModel
  | .mk p t e l m _ c, d => .mk p t e l m d c

/-- The empty object `{}` used as fallback model. -/
def emptyModel : RawBlockModel := .mk none [] none none none none none

end SchemLoader

namespace SchemLoader

/-! ## Funnel-flap synthesizer (createLoader.ts `patchFunnelFlap`, 1321-1349) -/

def flapIds : List String := ["create:block/funnel/flap", "create:block/belt_funnel/flap"]

/-- Clone `i` of the base flap element: from/to and rotation origin shifted
    by `-3 * i` along x, renamed `(name || 'flap')_i`. -/
def flapClone (base : RawModelElement) (i : Nat) : RawModelElement :=
  let nm := match base.name with
    | some s => if s.isEmpty then "flap" else s
    | none => "flap"
  .mk (some (nm ++ "_" ++ toString i))
    ⟨base.efrom.x - 3 * i, base.efrom.y, base.efrom.z⟩
    ⟨base.eto.x - 3 * i, base.eto.y, base.eto.z⟩
    (base.rotation.map fun r => { r with origin := ⟨r.origin.x - 3 * i, r.origin.y, r.origin.z⟩ })
    base.faces base.shade base.children

/-- `patchFunnelFlap`: for the two flap model ids, a single-element model is
    expanded to four x-shifted segments; models with zero or more than one
    element (or other ids) are left unchanged.  `c.from[0] -= 3 * i` on an
    OBJ mesh part (no `from`) is a TypeError, modelled as `Except.error`. -/
def patchFunnelFlap (modelJson : RawBlockModel) (cleanPath : String) :
    Except Unit RawBlockModel :=
  if !flapIds.contains cleanPath then .ok modelJson
  else
    match modelJson.elements with
    | none => .ok modelJson
    | some els =>
      if els.isEmpty then .ok modelJson
      else if els.length > 1 then .ok modelJson
      else
        match els.head? with
        | some (.cub base) =>
          .ok (modelJson.setElements
            (some (.cub base :: ([1, 2, 3].map fun i => .cub (flapClone base i)))))
        | some (.obj _) => .error ()
        | none => .ok modelJson

/-! ## Pipe limb synthesizer (`patchPipeCoreFaces` 731-761,
    `patchPipeModelLimbs` 763-844, `addPipeLimb` 846-930) -/

/-- The shared core cuboid: `from = [4,4,4]`, `to = [12,12,12]`
    (`'from' in e` excludes mesh parts). -/
def isCoreElem : ModelElem → Bool
  | .cub e => decide (e.efrom = ⟨4, 4, 4⟩ ∧ e.eto = ⟨12, 12, 12⟩)
  | .obj _ => false

def pipeFaceDirs : List String := ["north", "south", "east", "west", "up", "down"]

/-- `if (!core.faces[dir]) core.faces[dir] = {texture, uv}`. -/
def addMissingFace (face : RawModelFace) (c : RawModelElement) (dir : String) : RawModelElement :=
  if mapHas c.faces dir then c else c.setFaces (mapSet c.faces dir face)

/-- Fill every missing face of the core, reusing the first declared face's
    texture/uv (fallback `#0` / `[12,8,16,12]`). -/
def completeCoreFaces (core : RawModelElement) : RawModelElement :=
  let sampleFace := core.faces.head?.map Prod.snd
  let defaultUv : ℚ × ℚ × ℚ × ℚ :=
    match sampleFace with
    | some f => f.uv.getD (12, 8, 16, 12)
    | none => (12, 8, 16, 12)
  let defaultTexture :=
    match sampleFace with
    | some f => f.texture
    | none => "#0"
  pipeFaceDirs.foldl
    (addMissingFace
      { uv := some defaultUv, texture := defaultTexture,
        cullface := none, rotation := none, tintindex := none }) core

/-- Mutate the first element satisfying `p` in place. -/
def updateFirst (p : ModelElem → Bool) (f : RawModelElement → RawModelElement) :
    List ModelElem → List ModelElem
  | [] => []
  | e :: rest =>
    if p e then
      (match e with
        | .cub c => .cub (f c)
        | .obj o => .obj o) :: rest
    else e :: updateFirst p f rest

def patchPipeCoreFaces (json : RawBlockModel) : RawBlockModel :=
  match json.elements with
  | none => json
  | some els =>
    if (els.find? isCoreElem).isSome then
      json.setElements (some (updateFirst isCoreElem completeCoreFaces els))
    else json

/-- The fixed letter→direction table, per principal axis. -/
def pipeDir (comp : Char) (ax : String) : Option String :=
  if ax == "x" then
    if comp == 'u' then some "up"
    else if comp == 'd' then some "down"
    else if comp == 'l' then some "south"
    else if comp == 'r' then some "north"
    else none
  else if ax == "y" then
    if comp == 'u' then some "south"
    else if comp == 'd' then some "north"
    else if comp == 'l' then some "east"
    else if comp == 'r' then some "west"
    else none
  else if ax == "z" then
    if comp == 'u' then some "up"
    else if comp == 'd' then some "down"
    else if comp == 'l' then some "east"
    else if comp == 'r' then some "west"
    else none
  else none

def addPipeLimb (json : RawBlockModel) (dir : String) : RawBlockModel :=
  let els := json.elements.getD []
  let core : Option RawModelElement :=
    (els.find? isCoreElem).bind fun e =>
      match e with
      | .cub c => some c
      | .obj _ => none
  let pickFace := fun (nm : String) => core.bind fun c => mapGet? c.faces nm
  let sampleFace :=
    match pickFace dir with
    | some f => some f
    | none => core.bind fun c => c.faces.head?.map Prod.snd
  let texRef :=
    match sampleFace with
    | some f => f.texture
    | none => "#0"
  let uvSide : ℚ × ℚ × ℚ × ℚ :=
    match (pickFace dir).bind (fun f => f.uv) with
    | some uv => uv
    | none =>
      match sampleFace.bind (fun f => f.uv) with
      | some uv => uv
      | none => (4, 0, 12, 4)
  let uvEnd := uvSide
  let face := fun (rect : ℚ × ℚ × ℚ × ℚ) =>
    ({ uv := some rect, texture := texRef,
       cullface := none, rotation := none, tintindex := none } : RawModelFace)
  let lim : RawModelElement :=
    if dir == "up" then
      .mk none ⟨4, 12, 4⟩ ⟨12, 16, 12⟩ none
        [("north", face uvSide), ("south", face uvSide), ("east", face uvSide),
         ("west", face uvSide), ("up", face uvEnd)] none []
    else if dir == "down" then
      .mk none ⟨4, 0, 4⟩ ⟨12, 4, 12⟩ none
        [("north", face uvSide), ("south", face uvSide), ("east", face uvSide),
         ("west", face uvSide), ("down", face uvEnd)] none []
    else if dir == "east" then
      .mk none ⟨12, 4, 4⟩ ⟨16, 12, 12⟩ none
        [("north", face uvSide), ("south", face uvSide), ("up", face uvSide),
         ("down", face uvSide), ("east", face uvEnd)] none []
    else if dir == "west" then
      .mk none ⟨0, 4, 4⟩ ⟨4, 12, 12⟩ none
        [("north", face uvSide), ("south", face uvSide), ("up", face uvSide),
         ("down", face uvSide), ("west", face uvEnd)] none []
    else if dir == "south" then
      .mk none ⟨4, 4, 12⟩ ⟨12, 12, 16⟩ none
        [("east", face uvSide), ("west", face uvSide), ("up", face uvSide),
         ("down", face uvSide), ("south", face uvEnd)] none []
    else if dir == "north" then
      .mk none ⟨4, 4, 0⟩ ⟨12, 12, 4⟩ none
        [("east", face uvSide), ("west", face uvSide), ("up", face uvSide),
         ("down", face uvSide), ("north", face uvEnd)] none []
    else
      -- unreachable: `getDir` only produces the six directions; the
      -- initializer `{from:[0,0,0], to:[0,0,0], faces:{}}` would be pushed
      .mk none ⟨0, 0, 0⟩ ⟨0, 0, 0⟩ none [] none []
  json.setElements (some (els ++ [.cub lim]))

def pipeAxes : List String := ["x", "y", "z"]

def patchPipeModelLimbs (json : RawBlockModel) (modelId : String) : RawBlockModel :=
  let name := jsReplaceFirst (lastComp modelId) ".json" ""
  let parts := jsSplitChar name '_'
  if parts.length < 2 then json
  else
    let components := parts.getD 0 ""
    let axis := parts.getD 1 ""
    if !pipeAxes.contains axis then json
    else if components == "core" then json
    else
      let json1 := if json.elements.isNone then json.setElements (some []) else json
      components.data.foldl (fun j c =>
        match pipeDir c axis with
        | some dir => addPipeLimb j dir
        | none => j) json1

end SchemLoader


namespace SchemLoader

@[simp] theorem RawBlockModel.elements_setElements (m : RawBlockModel) (x : Option (List ModelElem)) :
    (m.setElements x).elements = x := by cases m; rfl

@[simp] theorem RawModelElement.faces_setFaces (e : RawModelElement) (fs : List (String × RawModelFace)) :
    (e.setFaces fs).faces = fs := by cases e; rfl

@[simp] theorem RawModelElement.efrom_setFaces (e : RawModelElement) (fs : List (String × RawModelFace)) :
    (e.setFaces fs).efrom = e.efrom := by cases e; rfl

@[simp] theorem RawModelElement.eto_setFaces (e : RawModelElement) (fs : List (String × RawModelFace)) :
    (e.setFaces fs).eto = e.eto := by cases e; rfl

theorem pff_nonflap (m : RawBlockModel) (p : String) (hp : flapIds.contains p = false) :
    patchFunnelFlap m p = .ok m := by
  rw [patchFunnelFlap]
  simp only [hp, Bool.not_false, if_true]

theorem pff_noop (m : RawBlockModel) (p : String)
    (h : m.elements.map List.length ≠ some 1) :
    patchFunnelFlap m p = .ok m := by
  rw [patchFunnelFlap]
  by_cases hp : flapIds.contains p
  · simp only [hp, Bool.not_true, Bool.false_eq_true, if_false]
    cases hels : m.elements with
    | none => rfl
    | some els =>
      match els with
      | [] => rfl
      | [e] => exact absurd (by rw [hels]; rfl) h
      | e1 :: e2 :: rest =>
        simp only [List.isEmpty_cons, Bool.false_eq_true, if_false, List.length_cons]
        rw [if_pos (by omega)]
  · have hpf : flapIds.contains p = false := by simpa using hp
    simp only [hpf, Bool.not_false, if_true]

theorem pff_expand (m : RawBlockModel) (p : String) (base : RawModelElement)
    (hp : flapIds.contains p = true) (hels : m.elements = some [.cub base]) :
    patchFunnelFlap m p
      = .ok (m.setElements (some (.cub base :: ([1, 2, 3].map fun i => .cub (flapClone base i))))) := by
  rw [patchFunnelFlap]
  simp only [hp, Bool.not_true, Bool.false_eq_true, if_false, hels]
  rfl

theorem pff_objthrow (m : RawBlockModel) (p : String) (o : ObjMeshPart)
    (hp : flapIds.contains p = true) (hels : m.elements = some [.obj o]) :
    patchFunnelFlap m p = .error () := by
  rw [patchFunnelFlap]
  simp only [hp, Bool.not_true, Bool.false_eq_true, if_false, hels]
  rfl

/-- Claim C8: the funnel-flap synthesizer is idempotent (second application
    is a no-op, including through the thrown TypeError on a mesh-part
    element); a flap model with exactly one cuboid element expands to four
    elements, the base plus three copies shifted by -3, -6, -9 along x with
    rotation origins shifted equally; and a model with zero or more than
    one element is returned unchanged. -/
theorem patchFunnelFlap_idempotent :
    (∀ (m : RawBlockModel) (p : String),
        (patchFunnelFlap m p).bind (fun m2 => patchFunnelFlap m2 p) = patchFunnelFlap m p)
    ∧ (∀ (m : RawBlockModel) (p : String) (base : RawModelElement),
        flapIds.contains p = true →
        m.elements = some [.cub base] →
        ∃ e1 e2 e3,
          patchFunnelFlap m p = .ok (m.setElements (some [.cub base, .cub e1, .cub e2, .cub e3]))
          ∧ e1.efrom = ⟨base.efrom.x - 3, base.efrom.y, base.efrom.z⟩
          ∧ e2.efrom = ⟨base.efrom.x - 6, base.efrom.y, base.efrom.z⟩
          ∧ e3.efrom = ⟨base.efrom.x - 9, base.efrom.y, base.efrom.z⟩
          ∧ e1.eto = ⟨base.eto.x - 3, base.eto.y, base.eto.z⟩
          ∧ e2.eto = ⟨base.eto.x - 6, base.eto.y, base.eto.z⟩
          ∧ e3.eto = ⟨base.eto.x - 9, base.eto.y, base.eto.z⟩
          ∧ e1.rotation = (base.rotation.map fun r =>
              { r with origin := ⟨r.origin.x - 3, r.origin.y, r.origin.z⟩ })
          ∧ e2.rotation = (base.rotation.map fun r =>
              { r with origin := ⟨r.origin.x - 6, r.origin.y, r.origin.z⟩ })
          ∧ e3.rotation = (base.rotation.map fun r =>
              { r with origin := ⟨r.origin.x - 9, r.origin.y, r.origin.z⟩ }))
    ∧ (∀ (m : RawBlockModel) (p : String),
        m.elements.map List.length ≠ some 1 →
        patchFunnelFlap m p = .ok m) := by
  refine ⟨?_, ?_, ?_⟩
  · intro m p
    by_cases hp : flapIds.contains p
    · by_cases h1 : m.elements.map List.length = some 1
      · cases hels : m.elements with
        | none => rw [hels] at h1; exact absurd h1 (by simp)
        | some els =>
          rw [hels] at h1
          simp at h1
          match els, h1 with
          | [e], _ =>
            cases e with
            | cub base =>
              rw [pff_expand m p base hp hels]
              show patchFunnelFlap (m.setElements _) p = _
              rw [pff_noop _ p (by simp)]
            | obj o =>
              rw [pff_objthrow m p o hp hels]
              rfl
      · rw [pff_noop m p h1]
        show patchFunnelFlap m p = .ok m
        exact pff_noop m p h1
    · rw [pff_nonflap m p (by simpa using hp)]
      show patchFunnelFlap m p = .ok m
      exact pff_nonflap m p (by simpa using hp)
  · intro m p base hp hels
    refine ⟨flapClone base 1, flapClone base 2, flapClone base 3,
      by simpa using pff_expand m p base hp hels, ?_, ?_, ?_, ?_, ?_, ?_, ?_, ?_, ?_⟩
    all_goals norm_num [flapClone, RawModelElement.efrom, RawModelElement.eto,
      RawModelElement.rotation]
  · intro m p hlen
    exact pff_noop m p hlen

/-- Concrete flap model for the witness: one cuboid element. -/
def flapSampleElem : RawModelElement :=
  .mk (some "flap") ⟨13, 10, 1⟩ ⟨15, 11, 2⟩
    (some { origin := ⟨14, 10, 1⟩, axis := "z", angle := 0, rescale := none })
    [("north", { uv := some (0, 0, 1, 1), texture := "#0",
                 cullface := none, rotation := none, tintindex := none })] none []

def flapSampleModel : RawBlockModel :=
  .mk none [("0", "create:block/funnel/flap")] (some [.cub flapSampleElem]) none none none none

theorem patchFunnelFlap_idempotent_witness :
    flapIds.contains "create:block/funnel/flap" = true
    ∧ flapSampleModel.elements = some [.cub flapSampleElem]
    ∧ ∃ e1 e2 e3,
        patchFunnelFlap flapSampleModel "create:block/funnel/flap"
          = .ok (flapSampleModel.setElements (some [.cub flapSampleElem, .cub e1, .cub e2, .cub e3]))
        ∧ e1.efrom = ⟨10, 10, 1⟩ := by
  refine ⟨by decide, rfl, ?_⟩
  obtain ⟨e1, e2, e3, heq, hf1, _⟩ :=
    patchFunnelFlap_idempotent.2.1 flapSampleModel "create:block/funnel/flap"
      flapSampleElem (by decide) rfl
  refine ⟨e1, e2, e3, heq, ?_⟩
  rw [hf1]
  norm_num [flapSampleElem, RawModelElement.efrom]

end SchemLoader

namespace SchemLoader

theorem any_mapSetFn_self (l : List (String × α)) (k : String) (v : α) :
    ((l.map fun p => if p.1 == k then (k, v) else p).any fun p => p.1 == k)
      = l.any fun p => p.1 == k := by
  induction l with
  | nil => rfl
  | cons p rest ih =>
    simp only [List.map_cons, List.any_cons, ih]
    by_cases hp : p.1 == k
    · simp [hp]
    · simp [hp]

theorem mapHas_mapSet_self (m : List (String × α)) (k : String) (v : α) :
    mapHas (mapSet m k v) k = true := by
  rw [mapSet]
  by_cases h : mapHas m k
  · rw [if_pos h, mapHas, any_mapSetFn_self]
    exact h
  · rw [if_neg h, mapHas, List.any_append]
    simp

theorem any_mapSetFn_mono (l : List (String × α)) (k d : String) (v : α)
    (h : (l.any fun p => p.1 == d) = true) :
    ((l.map fun p => if p.1 == k then (k, v) else p).any fun p => p.1 == d) = true := by
  induction l with
  | nil => simp at h
  | cons p rest ih =>
    simp only [List.any_cons, Bool.or_eq_true] at h
    simp only [List.map_cons, List.any_cons, Bool.or_eq_true]
    rcases h with h | h
    · left
      by_cases hp : p.1 == k
      · have hk : p.1 = k := by exact eq_of_beq hp
        have hd : p.1 = d := by exact eq_of_beq h
        simp only [hp, if_true]
        rw [← hk, hd]
        exact beq_self_eq_true d
      · simpa [hp] using h
    · right; exact ih h

theorem mapHas_mapSet_mono (m : List (String × α)) (k d : String) (v : α)
    (h : mapHas m d = true) : mapHas (mapSet m k v) d = true := by
  rw [mapSet]
  by_cases hk : mapHas m k
  · rw [if_pos hk, mapHas]
    exact any_mapSetFn_mono m k d v h
  · rw [if_neg hk, mapHas, List.any_append]
    rw [mapHas] at h
    simp [h]

@[simp] theorem addMissingFace_efrom (face : RawModelFace) (c : RawModelElement) (dir : String) :
    (addMissingFace face c dir).efrom = c.efrom := by
  rw [addMissingFace]; split <;> simp

@[simp] theorem addMissingFace_eto (face : RawModelFace) (c : RawModelElement) (dir : String) :
    (addMissingFace face c dir).eto = c.eto := by
  rw [addMissingFace]; split <;> simp

theorem addMissingFace_has_self (face : RawModelFace) (c : RawModelElement) (dir : String) :
    mapHas (addMissingFace face c dir).faces dir = true := by
  rw [addMissingFace]
  by_cases h : mapHas c.faces dir
  · rw [if_pos h]; exact h
  · rw [if_neg h, RawModelElement.faces_setFaces]
    exact mapHas_mapSet_self _ _ _

theorem addMissingFace_has_mono (face : RawModelFace) (c : RawModelElement) (dir d : String)
    (h : mapHas c.faces d = true) : mapHas (addMissingFace face c dir).faces d = true := by
  rw [addMissingFace]
  by_cases hh : mapHas c.faces dir
  · rw [if_pos hh]; exact h
  · rw [if_neg hh, RawModelElement.faces_setFaces]
    exact mapHas_mapSet_mono _ _ _ _ h

theorem foldl_addMissingFace_preserves (face : RawModelFace) (dirs : List String) :
    ∀ (c : RawModelElement) (d : String), mapHas c.faces d = true →
      mapHas ((dirs.foldl (addMissingFace face) c).faces) d = true := by
  induction dirs with
  | nil => intro c d h; exact h
  | cons dir rest ih =>
    intro c d h
    exact ih _ d (addMissingFace_has_mono face c dir d h)

theorem foldl_addMissingFace_has (face : RawModelFace) (dirs : List String) :
    ∀ (c : RawModelElement) (d : String), d ∈ dirs →
      mapHas ((dirs.foldl (addMissingFace face) c).faces) d = true := by
  induction dirs with
  | nil => intro c d h; cases h
  | cons dir rest ih =>
    intro c d h
    rcases List.mem_cons.mp h with h | h
    · subst h
      exact foldl_addMissingFace_preserves face rest _ d (addMissingFace_has_self face c d)
    · exact ih _ d h

theorem foldl_addMissingFace_efrom (face : RawModelFace) (dirs : List String) :
    ∀ (c : RawModelElement),
      (dirs.foldl (addMissingFace face) c).efrom = c.efrom
      ∧ (dirs.foldl (addMissingFace face) c).eto = c.eto := by
  induction dirs with
  | nil => intro c; exact ⟨rfl, rfl⟩
  | cons dir rest ih =>
    intro c
    rcases ih (addMissingFace face c dir) with ⟨h1, h2⟩
    refine ⟨?_, ?_⟩
    · rw [List.foldl_cons, h1, addMissingFace_efrom]
    · rw [List.foldl_cons, h2, addMissingFace_eto]

theorem completeCoreFaces_has (core : RawModelElement) (d : String) (hd : d ∈ pipeFaceDirs) :
    mapHas (completeCoreFaces core).faces d = true :=
  foldl_addMissingFace_has _ pipeFaceDirs core d hd

theorem completeCoreFaces_geom (core : RawModelElement) :
    (completeCoreFaces core).efrom = core.efrom ∧ (completeCoreFaces core).eto = core.eto :=
  foldl_addMissingFace_efrom _ pipeFaceDirs core

theorem isCoreElem_completeCoreFaces (c : RawModelElement) :
    isCoreElem (.cub (completeCoreFaces c)) = isCoreElem (.cub c) := by
  rw [isCoreElem, isCoreElem, (completeCoreFaces_geom c).1, (completeCoreFaces_geom c).2]

theorem find_updateFirst_core (l : List ModelElem) :
    (updateFirst isCoreElem completeCoreFaces l).find? isCoreElem
      = (l.find? isCoreElem).map fun e =>
          match e with
          | .cub c => .cub (completeCoreFaces c)
          | .obj o => .obj o := by
  induction l with
  | nil => rfl
  | cons e rest ih =>
    show (if isCoreElem e then _ else e :: updateFirst isCoreElem completeCoreFaces rest).find? isCoreElem = _
    by_cases he : isCoreElem e
    · rw [if_pos he]
      cases e with
      | cub c =>
        rw [List.find?_cons_of_pos _ (by rw [isCoreElem_completeCoreFaces]; exact he),
          List.find?_cons_of_pos _ he]
        rfl
      | obj o => simp [isCoreElem] at he
    · rw [if_neg he, List.find?_cons_of_neg _ he, List.find?_cons_of_neg _ (by simpa using he)]
      exact ih

end SchemLoader

namespace SchemLoader

theorem addPipeLimb_south (j : RawBlockModel) (els : List ModelElem)
    (h : j.elements = some els) :
    ∃ l : RawModelElement,
      addPipeLimb j "south" = j.setElements (some (els ++ [.cub l]))
      ∧ l.efrom = ⟨4, 4, 12⟩ ∧ l.eto = ⟨12, 12, 16⟩ := by
  rw [addPipeLimb, h]
  simp only [Option.getD_some,
    show ("south" == "up") = false from rfl, show ("south" == "down") = false from rfl,
    show ("south" == "east") = false from rfl, show ("south" == "west") = false from rfl,
    show ("south" == "south") = true from rfl, if_false, if_true, Bool.false_eq_true]
  exact ⟨_, rfl, rfl, rfl⟩

theorem addPipeLimb_up (j : RawBlockModel) (els : List ModelElem)
    (h : j.elements = some els) :
    ∃ l : RawModelElement,
      addPipeLimb j "up" = j.setElements (some (els ++ [.cub l]))
      ∧ l.efrom = ⟨4, 12, 4⟩ ∧ l.eto = ⟨12, 16, 12⟩ := by
  rw [addPipeLimb, h]
  simp only [Option.getD_some, show ("up" == "up") = true from rfl, if_true]
  exact ⟨_, rfl, rfl, rfl⟩

/-- Claim C5: for a fluid-pipe model whose file name is `lu_x`, the
    core-face patch completes the shared 4..12 core cuboid to all six
    faces, and the limb patch appends exactly two limb cuboids: the south
    limb [4,4,12]..[12,12,16] (letter `l` on axis x) followed by the up
    limb [4,12,4]..[12,16,12] (letter `u` on axis x). -/
theorem pipePatch_lu_x (json : RawBlockModel) (els : List ModelElem) (modelId : String)
    (hels : json.elements = some els)
    (hcore : (els.find? isCoreElem).isSome = true)
    (hname : jsReplaceFirst (lastComp modelId) ".json" "" = "lu_x") :
    ∃ (els1 : List ModelElem) (l1 l2 : RawModelElement),
      (patchPipeCoreFaces json).elements = some els1
      ∧ (∀ c : RawModelElement, els1.find? isCoreElem = some (.cub c) →
          ∀ d ∈ pipeFaceDirs, mapHas c.faces d = true)
      ∧ (els1.find? isCoreElem).isSome = true
      ∧ (patchPipeModelLimbs (patchPipeCoreFaces json) modelId).elements
          = some (els1 ++ [.cub l1, .cub l2])
      ∧ l1.efrom = ⟨4, 4, 12⟩ ∧ l1.eto = ⟨12, 12, 16⟩
      ∧ l2.efrom = ⟨4, 12, 4⟩ ∧ l2.eto = ⟨12, 16, 12⟩ := by
  have hj1 : patchPipeCoreFaces json
      = json.setElements (some (updateFirst isCoreElem completeCoreFaces els)) := by
    rw [patchPipeCoreFaces, hels]
    show (if (els.find? isCoreElem).isSome = true then
        json.setElements (some (updateFirst isCoreElem completeCoreFaces els)) else json) = _
    rw [if_pos hcore]
  set els1 := updateFirst isCoreElem completeCoreFaces els with hels1
  have hj1els : (patchPipeCoreFaces json).elements = some els1 := by
    rw [hj1, RawBlockModel.elements_setElements]
  have hfind : els1.find? isCoreElem
      = (els.find? isCoreElem).map (fun e =>
          match e with
          | .cub c => .cub (completeCoreFaces c)
          | .obj o => .obj o) := find_updateFirst_core els
  -- the two limbs
  have hlimb : ∃ l1 l2 : RawModelElement,
      (patchPipeModelLimbs (patchPipeCoreFaces json) modelId).elements
        = some (els1 ++ [.cub l1, .cub l2])
      ∧ l1.efrom = ⟨4, 4, 12⟩ ∧ l1.eto = ⟨12, 12, 16⟩
      ∧ l2.efrom = ⟨4, 12, 4⟩ ∧ l2.eto = ⟨12, 16, 12⟩ := by
    have hnone : (patchPipeCoreFaces json).elements.isNone = false := by
      rw [hj1els]; rfl
    simp only [patchPipeModelLimbs, hname,
      show jsSplitChar "lu_x" '_' = ["lu", "x"] from rfl,
      show List.getD ["lu", "x"] 0 "" = "lu" from rfl,
      show List.getD ["lu", "x"] 1 "" = "x" from rfl,
      show pipeAxes.contains "x" = true from rfl,
      show ("lu" == "core") = false from rfl,
      show ("lu").data = ['l', 'u'] from rfl,
      show pipeDir 'l' "x" = some "south" from rfl,
      show pipeDir 'u' "x" = some "up" from rfl,
      hnone, List.length_cons, List.length_nil, List.foldl_cons, List.foldl_nil,
      Bool.not_true, Bool.false_eq_true, if_false]
    rw [if_neg (by norm_num)]
    obtain ⟨l1, h1, hf1, ht1⟩ := addPipeLimb_south (patchPipeCoreFaces json) els1 hj1els
    rw [h1]
    obtain ⟨l2, h2, hf2, ht2⟩ := addPipeLimb_up
      ((patchPipeCoreFaces json).setElements (some (els1 ++ [ModelElem.cub l1])))
      (els1 ++ [ModelElem.cub l1]) (by rw [RawBlockModel.elements_setElements])
    rw [h2]
    exact ⟨l1, l2, by simp, hf1, ht1, hf2, ht2⟩
  obtain ⟨l1, l2, hl, hf1, ht1, hf2, ht2⟩ := hlimb
  refine ⟨els1, l1, l2, hj1els, ?_, ?_, hl, hf1, ht1, hf2, ht2⟩
  · intro c hc d hd
    rw [hfind] at hc
    cases hfe : els.find? isCoreElem with
    | none => rw [hfe] at hc; simp at hc
    | some e =>
      rw [hfe] at hc
      cases e with
      | cub c0 =>
        simp only [Option.map] at hc
        have : c = completeCoreFaces c0 := by
          injection hc with hh
          cases hh
          rfl
        rw [this]
        exact completeCoreFaces_has c0 d hd
      | obj o =>
        have := List.find?_some hfe
        rw [show isCoreElem (ModelElem.obj o) = false from rfl] at this
        exact Bool.noConfusion this
  · rw [hfind]
    cases hfe : els.find? isCoreElem with
    | none => rw [hfe] at hcore; simp at hcore
    | some e => simp

end SchemLoader

namespace SchemLoader

/-- Concrete `lu_x` pipe model: the authored core knot with a single north
    face, as in the shipped fluid-pipe assets. -/
def pipeSampleCore : RawModelElement :=
  .mk none ⟨4, 4, 4⟩ ⟨12, 12, 12⟩ none
    [("north", { uv := some (4, 4, 12, 12), texture := "#0",
                 cullface := none, rotation := none, tintindex := none })] none []

def pipeSampleModel : RawBlockModel :=
  .mk none [("0", "create:block/fluid_pipe/pipe")] (some [.cub pipeSampleCore])
    none none none none

theorem pipePatch_lu_x_witness :
    pipeSampleModel.elements = some [.cub pipeSampleCore]
    ∧ (([ModelElem.cub pipeSampleCore].find? isCoreElem).isSome = true)
    ∧ jsReplaceFirst (lastComp "create:block/fluid_pipe/lu_x") ".json" "" = "lu_x"
    ∧ ∃ (els1 : List ModelElem) (l1 l2 : RawModelElement),
        (patchPipeCoreFaces pipeSampleModel).elements = some els1
        ∧ (patchPipeModelLimbs (patchPipeCoreFaces pipeSampleModel)
            "create:block/fluid_pipe/lu_x").elements = some (els1 ++ [.cub l1, .cub l2])
        ∧ l1.efrom = ⟨4, 4, 12⟩ ∧ l1.eto = ⟨12, 12, 16⟩
        ∧ l2.efrom = ⟨4, 12, 4⟩ ∧ l2.eto = ⟨12, 16, 12⟩ := by
  obtain ⟨els1, l1, l2, h1, _, _, h4, h5, h6, h7, h8⟩ :=
    pipePatch_lu_x pipeSampleModel [.cub pipeSampleCore] "create:block/fluid_pipe/lu_x"
      rfl (by decide) (by decide)
  exact ⟨rfl, by decide, by decide, els1, l1, l2, h1, h4, h5, h6, h7, h8⟩

end SchemLoader

namespace SchemLoader

/-! ## Blockstate data model (types/assets.ts) and the heuristic subpart
    patcher (createLoader.ts `autoAttachSubparts`, 228-477) -/

/-- `RawMultipartWhen`: a flat property map or an `OR` of property maps. -/
inductive MpWhen where
  | props (ps : List (String × String))
  | orC (cs : List (List (String × String)))
deriving DecidableEq, Repr

/-- `RawBlockStateVariant` (plus the `z` property the subpart copier reads). -/
structure RawVariant where
  model : Option String
  x : Option Int
  y : Option Int
  z : Option Int
  uvlock : Option Bool
  weight : Option Int
deriving DecidableEq, Repr

def mkVariant (model : String) : RawVariant :=
  { model := some model, x := none, y := none, z := none, uvlock := none, weight := none }

/-- A multipart `apply`: JSON null/undefined, a single variant, or a list. -/
inductive ApplyVal where
  | anull
  | one (v : RawVariant)
  | many (vs : List RawVariant)
deriving DecidableEq, Repr

structure RawMultipartCase where
  when : Option MpWhen
  apply : ApplyVal
deriving DecidableEq, Repr

/-- A `variants` value: JSON null, a single variant, or a weighted list. -/
inductive VariantVal where
  | vnull
  | one (v : RawVariant)
  | many (vs : List RawVariant)
deriving DecidableEq, Repr

/-- `RawBlockState` plus the two ad-hoc injection flags the loader stores on
    the descriptor (`_gearsInjected`, `_armCogInjected`). -/
structure RawBlockState where
  variants : Option (List (String × VariantVal))
  multipart : Option (List RawMultipartCase)
  gearsInjected : Bool := false
  armCogInjected : Bool := false
deriving DecidableEq, Repr

structure AutoSubpartEntry where
  blockId : String
  baseModel : String
  subpart : String
  when : Option MpWhen
deriving DecidableEq, Repr

def SUBPART_TOKENS : List String :=
  ["head", "blade", "pole", "cog", "cogwheel", "pointer", "flap", "hand", "fan",
   "shaft", "arm", "middle", "hose", "top", "belt", "claw", "body", "wheel",
   "roller", "valve", "handle", "casing", "guard"]

def AUTO_SUBPART_BLOCKS : List String :=
  ["funnel", "tunnel", "spout", "mechanical_mixer", "mechanical_pump",
   "portable_storage_interface", "mechanical_saw", "mechanical_drill", "deployer",
   "mechanical_press", "analog_lever", "hand_crank", "weighted_ejector",
   "create:water_wheel", "mechanical_roller", "chain_conveyor"]

/-- `normalizePath`: default namespace `minecraft:` when no colon present. -/
def normalizePath (path : String) : String :=
  if !jsIncludes path ":" then "minecraft:" ++ path else path

/-- `parseWhen` (`autoAttachSubparts` 234-249 and `injectMechanicalArmCog`
    1582-1597): split the state key on ',' then '=', skipping empty pairs
    and pairs with an absent key or value; `undefined` when nothing parses. -/
def parseWhenPairs (key : String) : List (String × String) :=
  (jsSplitChar key ',').foldl (fun acc pair =>
    if pair.isEmpty then acc
    else
      let kv := jsSplitChar pair '='
      let k := kv.getD 0 ""
      let v := kv.getD 1 ""
      if !k.isEmpty && !v.isEmpty then mapSet acc k v else acc) []

def parseWhen (key : String) : Option MpWhen :=
  if key.isEmpty then none
  else
    let ps := parseWhenPairs key
    if ps.isEmpty then none else some (.props ps)

/-- `JSON.stringify` of a `when` condition as the code's dedup keys use it
    (string values, no escaping needed for descriptor keys). -/
def jsonQ (s : String) : String := "\"" ++ s ++ "\""

def stringifyProps (ps : List (String × String)) : String :=
  "\x7b" ++ String.intercalate "," (ps.map fun p => jsonQ p.1 ++ ":" ++ jsonQ p.2) ++ "\x7d"

def stringifyWhen : Option MpWhen → String
  | none => "\x7b\x7d"
  | some (.props ps) => stringifyProps ps
  | some (.orC cs) =>
      "\x7b" ++ jsonQ "OR" ++ ":[" ++ String.intercalate "," (cs.map stringifyProps) ++ "]\x7d"

/-- One record of `modelUsage`. -/
structure AAUsage where
  apply : Option RawVariant
  when : Option MpWhen
deriving DecidableEq, Repr

/-- State while converting the descriptor into the working multipart list. -/
structure AABuild where
  multiparts : List RawMultipartCase
  referenced : List String
  usage : List (String × List AAUsage)
deriving DecidableEq, Repr

def recordUsage (st : AABuild) (model : String) (when : Option MpWhen)
    (a : Option RawVariant) : AABuild :=
  let norm := normalizePath model
  { st with
    referenced := setAdd st.referenced norm,
    usage := mapSet st.usage norm (((mapGet? st.usage norm).getD []) ++ [⟨a, when⟩]) }

/-- A possibly-absent variant as a multipart `apply` payload. -/
def applyOf : Option RawVariant → ApplyVal
  | some v => ApplyVal.one v
  | none => ApplyVal.anull

def pushMultipart (st : AABuild) (a? : Option RawVariant) (when : Option MpWhen) : AABuild :=
  let st1 := { st with multiparts := st.multiparts ++ [⟨when, applyOf a?⟩] }
  if truthyS (a?.bind (·.model)) then
    recordUsage st1 ((a?.bind (·.model)).getD "") when a?
  else st1

/-- `Array.isArray(variant) ? variant : [variant]` on a variants value. -/
def variantValList : VariantVal → List (Option RawVariant)
  | .vnull => [none]
  | .one v => [some v]
  | .many vs => vs.map some

/-- `Array.isArray(part.apply) ? part.apply : [part.apply]`. -/
def applyList : ApplyVal → List (Option RawVariant)
  | .anull => [none]
  | .one v => [some v]
  | .many vs => vs.map some

/-- Lines 274-294: feed every variant entry (key parsed to a `when`) and
    every existing multipart entry through `pushMultipart`. -/
def buildPhase (def0 : RawBlockState) : AABuild :=
  let st0 : AABuild := ⟨[], [], []⟩
  let st1 :=
    match def0.variants with
    | some vs => vs.foldl (fun st kv =>
        let whenc := parseWhen kv.1
        (variantValList kv.2).foldl (fun st e => pushMultipart st e whenc) st) st0
    | none => st0
  match def0.multipart with
  | some parts => parts.foldl (fun st part =>
      (applyList part.apply).foldl (fun st a? => pushMultipart st a? part.when) st) st1
  | none => st1

/-- State during subpart discovery and the family-specific appends. -/
structure AASt2 where
  multiparts : List RawMultipartCase
  referenced : List String
  added : List String
  log : List AutoSubpartEntry
deriving DecidableEq, Repr

/-- Lines 319-327 + 328-395: the subpart entry's orientation, copied from
    the triggering entry then overridden for the pump-cog and drill-head
    families according to the entry's `facing` property. -/
def buildSubpartApply (blockId candidate : String) (baseApply : Option RawVariant)
    (whenc : Option MpWhen) : RawVariant :=
  let a0 := mkVariant candidate
  let a1 :=
    match baseApply with
    | some b => { a0 with x := b.x, y := b.y, z := b.z, uvlock := b.uvlock }
    | none => a0
  let whenFacing : Option String :=
    match whenc with
    | some (.props ps) => mapGet? ps "facing"
    | _ => none
  let a2 :=
    if jsIncludes blockId "mechanical_pump" && jsIncludes candidate "mechanical_pump/cog" then
      match whenFacing with
      | some f =>
        if f == "north" then { a1 with x := some 0, y := some 0 }
        else if f == "south" then { a1 with x := some 0, y := some 180 }
        else if f == "east" then { a1 with x := some 0, y := some 90 }
        else if f == "west" then { a1 with x := some 0, y := some 270 }
        else if f == "up" then { a1 with x := some 270, y := some 0 }
        else if f == "down" then { a1 with x := some 90, y := some 0 }
        else { a1 with x := some (jsNorm360 (a1.x.getD 0)), y := some (jsNorm360 (a1.y.getD 0)) }
      | none => { a1 with x := some (jsNorm360 (a1.x.getD 0)), y := some (jsNorm360 (a1.y.getD 0)) }
    else a1
  if jsIncludes blockId "mechanical_drill" && jsIncludes candidate "mechanical_drill/head" then
    match whenFacing with
    | some f =>
      if f == "north" then { a2 with x := some 0, y := some (jsNorm360 0) }
      else if f == "south" then { a2 with x := some 0, y := some (jsNorm360 180) }
      else if f == "east" then { a2 with x := some 0, y := some (jsNorm360 270) }
      else if f == "west" then { a2 with x := some 0, y := some (jsNorm360 90) }
      else if f == "up" then { a2 with x := some (jsNorm360 90), y := some 0 }
      else if f == "down" then { a2 with x := some (jsNorm360 270), y := some 0 }
      else a2
    | none => a2
  else a2

/-- Line 396: the dedup key of an attached subpart entry. -/
def subpartKey (candidate : String) (a : RawVariant) (whenc : Option MpWhen) : String :=
  candidate ++ "|" ++ toString (a.x.getD 0) ++ "|" ++ toString (a.y.getD 0) ++ "|"
    ++ toString (a.z.getD 0) ++ "|" ++ jsBoolStr (a.uvlock.getD false) ++ "|"
    ++ stringifyWhen whenc

/-- Lines 298-405, inner step: one `(baseModel, entries)` pair of
    `modelUsage` against the fetched-model-cache keys. -/
def scanOneBase (blockId : String) (fetchedModelKeys : List String)
    (bu : String × List AAUsage) (st : AASt2) : AASt2 :=
  let baseModel := bu.1
  let dir := dirOf baseModel
  if jsEndsWith dir ":block" then st
  else
    let whenList := if bu.2.isEmpty then [({ apply := none, when := none } : AAUsage)] else bu.2
    fetchedModelKeys.foldl (fun st candidate =>
      if !jsStartsWith candidate (dir ++ "/") then st
      else if st.referenced.contains candidate then st
      else if !(SUBPART_TOKENS.any fun t => jsIncludes (lastComp candidate) t) then st
      else
        whenList.foldl (fun st u =>
          let a := buildSubpartApply blockId candidate u.apply u.when
          let key := subpartKey candidate a u.when
          if st.added.contains key then st
          else
            { st with
              multiparts := st.multiparts ++ [⟨u.when, .one a⟩],
              added := setAdd st.added key,
              log := st.log ++ [⟨blockId, baseModel, candidate, u.when⟩] }) st) st

/-- Lines 298-405: scan the fetched-model cache for sibling subpart models
    of every used base model. -/
def scanCandidates (blockId : String) (fetchedModelKeys : List String)
    (usage : List (String × List AAUsage)) (st : AASt2) : AASt2 :=
  usage.foldl (fun st bu => scanOneBase blockId fetchedModelKeys bu st) st

def spoutNozzles : List String :=
  ["create:block/spout/top", "create:block/spout/middle", "create:block/spout/bottom"]

/-- Lines 411-423: unconditional spout nozzle attachment. -/
def spoutPhase (blockId : String) (fetchedModelKeys : List String) (st : AASt2) : AASt2 :=
  if jsIncludes blockId "spout" then
    spoutNozzles.foldl (fun st nozzle =>
      let norm := normalizePath nozzle
      if !fetchedModelKeys.contains norm then st
      else
        let st1 :=
          if !st.referenced.contains norm then
            { st with multiparts := st.multiparts ++ [⟨none, .one (mkVariant norm)⟩] }
          else st
        { st1 with
          referenced := setAdd st1.referenced norm,
          log := st1.log ++ [⟨blockId, "create:block/spout/block", norm, none⟩] }) st
  else st

/-- Lines 427-455: `attachFlap`, iterating the snapshot `baseMultiparts`. -/
def attachFlap (blockId primaryBaseModel : String) (fetchedModelKeys : List String)
    (baseMultiparts : List RawMultipartCase) (flapId : String)
    (srcMatch : String → Bool) (st : AASt2) : AASt2 :=
  let normFlap := normalizePath flapId
  if !fetchedModelKeys.contains normFlap then st
  else
    baseMultiparts.foldl (fun st part =>
      (applyList part.apply).foldl (fun st a? =>
        let modelName : Option String := a?.bind (·.model)
        if !truthyS modelName then st
        else if !srcMatch (modelName.getD "") then st
        else
          let facing : Option String :=
            match part.when with
            | some (.props ps) => if mapHas ps "facing" then mapGet? ps "facing" else none
            | _ => none
          if facing == some "up" || facing == some "down" then st
          else
            let keyed := normFlap ++ "|" ++ stringifyWhen part.when ++ "|"
              ++ toString ((a?.bind (·.x)).getD 0) ++ "|" ++ toString ((a?.bind (·.y)).getD 0)
            if st.referenced.contains keyed then st
            else
              { st with
                multiparts := st.multiparts ++
                  [⟨part.when, .one { mkVariant normFlap with
                      x := a?.bind (·.x), y := a?.bind (·.y) }⟩],
                referenced := setAdd st.referenced keyed,
                log := st.log ++ [⟨blockId, primaryBaseModel, normFlap, part.when⟩] }) st) st

/-- Lines 464-471: mixer cog attachment. -/
def mixerPhase (blockId primaryBaseModel : String) (fetchedModelKeys : List String)
    (st : AASt2) : AASt2 :=
  if jsIncludes blockId "mechanical_mixer" then
    let cog := normalizePath "create:block/cogwheel_shaftless"
    if fetchedModelKeys.contains cog && !st.referenced.contains cog then
      { st with
        multiparts := st.multiparts ++ [⟨none, .one (mkVariant cog)⟩],
        referenced := setAdd st.referenced cog,
        log := st.log ++ [⟨blockId, primaryBaseModel, cog, none⟩] }
    else st
  else st

/-- `autoAttachSubparts` (createLoader.ts 228-477): returns the updated
    descriptor and the entries appended to `autoSubpartLog`.  The fetched
    block-model `Map` is observed only through its keys. -/
def autoAttachSubparts (fetchedModelKeys : List String) (def0 : RawBlockState)
    (blockId : String) : RawBlockState × List AutoSubpartEntry :=
  if !(AUTO_SUBPART_BLOCKS.any fun k => jsIncludes blockId k) then (def0, [])
  else
    let b := buildPhase def0
    let st0 : AASt2 := ⟨b.multiparts, b.referenced, [], []⟩
    let st1 := scanCandidates blockId fetchedModelKeys b.usage st0
    let primaryBaseModel := ((b.usage.head?).map Prod.fst).getD blockId
    let st2 := spoutPhase blockId fetchedModelKeys st1
    let baseMultiparts := st2.multiparts
    let st3 :=
      if jsIncludes blockId "funnel" then
        attachFlap blockId primaryBaseModel fetchedModelKeys baseMultiparts
          "create:block/belt_funnel/flap" (fun m => jsIncludes m "belt_funnel")
          (attachFlap blockId primaryBaseModel fetchedModelKeys baseMultiparts
            "create:block/funnel/flap" (fun m => jsIncludes m "funnel") st2)
      else st2
    let st4 :=
      if jsIncludes blockId "tunnel" then
        attachFlap blockId primaryBaseModel fetchedModelKeys baseMultiparts
          "create:block/belt_tunnel/flap" (fun m => jsIncludes m "tunnel") st3
      else st3
    let st5 := mixerPhase blockId primaryBaseModel fetchedModelKeys st4
    if st5.multiparts.isEmpty then (def0, st5.log)
    else ({ def0 with multipart := some st5.multiparts, variants := none }, st5.log)

end SchemLoader

namespace SchemLoader

/-- Claim C9: for a block id containing none of the allow-listed
    substrings, `autoAttachSubparts` returns the descriptor unchanged
    (variants and multipart alike) and appends nothing to the auto-subpart
    log. -/
theorem autoAttach_guard_noop (fetchedModelKeys : List String) (def0 : RawBlockState)
    (blockId : String)
    (h : (AUTO_SUBPART_BLOCKS.any fun k => jsIncludes blockId k) = false) :
    autoAttachSubparts fetchedModelKeys def0 blockId = (def0, []) := by
  rw [autoAttachSubparts]
  simp only [h, Bool.not_false, if_true]

/-- Witness descriptor: a chute with a single variant. -/
def chuteDef : RawBlockState :=
  { variants := some [("facing=north", VariantVal.one (mkVariant "create:block/chute/x"))],
    multipart := none }

theorem autoAttach_guard_noop_witness :
    (AUTO_SUBPART_BLOCKS.any fun k => jsIncludes "create:chute" k) = false
    ∧ autoAttachSubparts ["create:block/chute/cog"] chuteDef "create:chute"
        = (chuteDef, []) :=
  ⟨by decide, autoAttach_guard_noop ["create:block/chute/cog"] chuteDef "create:chute" (by decide)⟩

/-- Claim C1 (counterexample): the block id `create:chute` matches no
    allow-list entry, so its variants-only descriptor passes through the
    patcher untouched: `variants` survives and no `multipart` is created. -/
theorem autoAttach_variants_counterexample :
    autoAttachSubparts [] chuteDef "create:chute" = (chuteDef, [])
    ∧ chuteDef.variants.isSome = true
    ∧ chuteDef.multipart = none := by
  refine ⟨?_, by decide, by decide⟩
  decide

/-- Spec-side conversion (§4.4 step (2) / §8 Normalization): every variant
    entry becomes one multipart case per model reference, `when` being the
    property map parsed from the state key with absent or malformed parts
    ignored. -/
def specVariantsToMultipart (vs : List (String × VariantVal)) : List RawMultipartCase :=
  vs.flatMap fun kv => (variantValList kv.2).map fun a? =>
    ({ when := parseWhen kv.1, apply := applyOf a? } : RawMultipartCase)

theorem pushMultipart_multiparts (st : AABuild) (a? : Option RawVariant)
    (w : Option MpWhen) :
    (pushMultipart st a? w).multiparts = st.multiparts ++ [⟨w, applyOf a?⟩] := by
  rw [pushMultipart]
  split <;> rfl

theorem foldl_push_inner (w : Option MpWhen) :
    ∀ (es : List (Option RawVariant)) (st : AABuild),
      ((es.foldl (fun st e => pushMultipart st e w) st).multiparts)
        = st.multiparts ++ es.map fun a? => (⟨w, applyOf a?⟩ : RawMultipartCase) := by
  intro es
  induction es with
  | nil => intro st; simp
  | cons e rest ih =>
    intro st
    rw [List.foldl_cons, ih, pushMultipart_multiparts, List.map_cons]
    simp

theorem foldl_push_outer :
    ∀ (vs : List (String × VariantVal)) (st : AABuild),
      ((vs.foldl (fun st kv =>
          (variantValList kv.2).foldl (fun st e => pushMultipart st e (parseWhen kv.1)) st)
        st).multiparts)
        = st.multiparts ++ specVariantsToMultipart vs := by
  intro vs
  induction vs with
  | nil => intro st; simp [specVariantsToMultipart]
  | cons kv rest ih =>
    intro st
    rw [List.foldl_cons, ih, foldl_push_inner]
    simp [specVariantsToMultipart]

theorem buildPhase_variants_only (def0 : RawBlockState) (vs : List (String × VariantVal))
    (hv : def0.variants = some vs) (hmp : def0.multipart = none) :
    (buildPhase def0).multiparts = specVariantsToMultipart vs := by
  rw [buildPhase, hv, hmp]
  simpa using foldl_push_outer vs ⟨[], [], []⟩

theorem scanOneBase_nil (blockId : String) (bu : String × List AAUsage) (st : AASt2) :
    scanOneBase blockId [] bu st = st := by
  rw [scanOneBase]
  split <;> rfl

theorem scanCandidates_nil (blockId : String) :
    ∀ (u : List (String × List AAUsage)) (st : AASt2),
      scanCandidates blockId [] u st = st := by
  intro u
  induction u with
  | nil => intro st; rfl
  | cons bu rest ih =>
    intro st
    show scanCandidates blockId [] rest (scanOneBase blockId [] bu st) = st
    rw [scanOneBase_nil]
    exact ih st

theorem spoutPhase_nil (blockId : String) (st : AASt2) :
    spoutPhase blockId [] st = st := by
  rw [spoutPhase]
  split <;> rfl

theorem mixerPhase_nil (blockId primary : String) (st : AASt2) :
    mixerPhase blockId primary [] st = st := by
  rw [mixerPhase]
  split <;> rfl

theorem attachFlap_nil (blockId primary : String) (bm : List RawMultipartCase)
    (flapId : String) (srcMatch : String → Bool) (st : AASt2) :
    attachFlap blockId primary [] bm flapId srcMatch st = st := rfl

/-- Claim C1 (amended): for a block id containing an allow-listed substring
    and a descriptor containing only a `variants` mapping with at least one
    convertible entry, `autoAttachSubparts` (here with an empty fetched
    model cache, so heuristic discovery attaches nothing) deletes
    `variants` and produces a non-empty `multipart` list that is exactly
    the spec-side conversion: one case per model reference whose `when` is
    the property map parsed from the original variant key (absent or
    malformed key parts ignored). -/
theorem autoAttach_variants_normalized (def0 : RawBlockState) (blockId : String)
    (vs : List (String × VariantVal))
    (hallow : (AUTO_SUBPART_BLOCKS.any fun k => jsIncludes blockId k) = true)
    (hv : def0.variants = some vs)
    (hmp : def0.multipart = none)
    (hne : specVariantsToMultipart vs ≠ []) :
    (autoAttachSubparts [] def0 blockId).1.variants = none
    ∧ (autoAttachSubparts [] def0 blockId).1.multipart = some (specVariantsToMultipart vs)
    ∧ (autoAttachSubparts [] def0 blockId).1.multipart ≠ some [] := by
  have hbuild : (buildPhase def0).multiparts = specVariantsToMultipart vs :=
    buildPhase_variants_only def0 vs hv hmp
  rw [autoAttachSubparts]
  simp only [hallow, Bool.not_true, Bool.false_eq_true, if_false]
  rw [scanCandidates_nil, spoutPhase_nil, mixerPhase_nil]
  have hflap : ∀ (primary : String) (bm : List RawMultipartCase) (st : AASt2),
      (if jsIncludes blockId "funnel" then
        attachFlap blockId primary [] bm "create:block/belt_funnel/flap"
          (fun m => jsIncludes m "belt_funnel")
          (attachFlap blockId primary [] bm "create:block/funnel/flap"
            (fun m => jsIncludes m "funnel") st)
      else st) = st := by
    intro primary bm st
    rw [attachFlap_nil, attachFlap_nil]
    split <;> rfl
  rw [hflap]
  have htun : ∀ (primary : String) (bm : List RawMultipartCase) (st : AASt2),
      (if jsIncludes blockId "tunnel" then
        attachFlap blockId primary [] bm "create:block/belt_tunnel/flap"
          (fun m => jsIncludes m "tunnel") st
      else st) = st := by
    intro primary bm st
    rw [attachFlap_nil]
    split <;> rfl
  rw [htun, hbuild]
  rw [if_neg (by simpa using hne)]
  exact ⟨rfl, rfl, fun hcon => hne (Option.some.inj hcon)⟩

theorem autoAttach_variants_normalized_witness :
    (AUTO_SUBPART_BLOCKS.any fun k => jsIncludes "create:spout" k) = true
    ∧ (autoAttachSubparts [] chuteDef "create:spout").1.variants = none
    ∧ (autoAttachSubparts [] chuteDef "create:spout").1.multipart
        = some (specVariantsToMultipart
            [("facing=north", VariantVal.one (mkVariant "create:block/chute/x"))]) := by
  obtain ⟨h1, h2, _⟩ := autoAttach_variants_normalized chuteDef "create:spout"
    [("facing=north", VariantVal.one (mkVariant "create:block/chute/x"))]
    (by decide) rfl rfl (by decide)
  exact ⟨by decide, h1, h2⟩

end SchemLoader

namespace SchemLoader

/-! ## Pure helpers of the loader pipeline (createLoader.ts) -/

/-- `rotateElementX90` (652-701): rotate one cuboid 90° about x around the
    block center; `y' = 16 - z`, `z' = y`, with from/to re-sorted per
    component, the rotation axis swapped (y↔z with angle negation for z→y)
    and faces relabelled by the fixed table. -/
def rotVecX90 (p : Vec3) : Vec3 := ⟨p.x, 16 - p.z, p.y⟩

def faceMapX90 (dir : String) : String :=
  if dir == "up" then "south"
  else if dir == "down" then "north"
  else if dir == "north" then "up"
  else if dir == "south" then "down"
  else dir

def rotateElementX90 (element : RawModelElement) : RawModelElement :=
  let f := rotVecX90 element.efrom
  let t := rotVecX90 element.eto
  let nfrom : Vec3 := ⟨min f.x t.x, min f.y t.y, min f.z t.z⟩
  let nto : Vec3 := ⟨max f.x t.x, max f.y t.y, max f.z t.z⟩
  let nrot := element.rotation.map fun r =>
    let r1 := { r with origin := rotVecX90 r.origin }
    if r1.axis == "y" then { r1 with axis := "z" }
    else if r1.axis == "z" then { r1 with axis := "y", angle := -r1.angle }
    else r1
  let nfaces := element.faces.foldl (fun acc p => mapSet acc (faceMapX90 p.1) p.2) []
  .mk element.name nfrom nto nrot nfaces element.shade element.children

def rotateElementsX90 (elements : List RawModelElement) : List RawModelElement :=
  elements.map rotateElementX90

/-- `translateElements` (1457-1473): shift from/to/rotation-origin and
    recurse into element children. -/
def translateElement (dx dy dz : ℚ) : RawModelElement → RawModelElement
  | .mk name f t rot faces shade children =>
    .mk name ⟨f.x + dx, f.y + dy, f.z + dz⟩ ⟨t.x + dx, t.y + dy, t.z + dz⟩
      (rot.map fun r => { r with origin := ⟨r.origin.x + dx, r.origin.y + dy, r.origin.z + dz⟩ })
      faces shade (children.attach.map fun c => translateElement dx dy dz c.1)
termination_by e => sizeOf e
decreasing_by
  have h1 := List.sizeOf_lt_of_mem c.2
  simp only [RawModelElement.mk.sizeOf_spec]
  omega

def translateElements (elements : List RawModelElement) (dx dy dz : ℚ) :
    List RawModelElement :=
  elements.map (translateElement dx dy dz)

/-- `splitMechanicalArmElements` (1475-1483): partition cuboid elements by
    whether the (lowercased) name contains `gear`; mesh parts are dropped
    by the `'from' in el` guards. -/
def isGearElem (e : RawModelElement) : Bool :=
  jsIncludes (jsToLower (e.name.getD "")) "gear"

def splitMechanicalArmElements (itemModel : RawBlockModel) :
    List RawModelElement × List RawModelElement × List (String × String) :=
  let elements := itemModel.elements.getD []
  let cogElements := elements.filterMap fun e =>
    match e with
    | .cub c => if isGearElem c then some c else none
    | .obj _ => none
  let bodyElements := elements.filterMap fun e =>
    match e with
    | .cub c => if isGearElem c then none else some c
    | .obj _ => none
  (bodyElements, cogElements, itemModel.textures)

/-- The collision-avoiding key search of `mergeChildTextures` (983-988).
    The `while` loop terminates because the tried keys `candidate`,
    `candidate_1`, ... are pairwise distinct and only `textures.length`
    keys are occupied, so `textures.length + 1` iterations always find a
    free or same-valued (or empty-valued, hence falsy) key. -/
def findFreeKeyAux (textures : List (String × String)) (candidate value : String) :
    Nat → Nat → String
  | 0, suffix => candidate ++ "_" ++ toString suffix
  | fuel + 1, suffix =>
    let key := if suffix == 0 then candidate else candidate ++ "_" ++ toString suffix
    match mapGet? textures key with
    | some v =>
      if v.isEmpty || v == value then key
      else findFreeKeyAux textures candidate value fuel (suffix + 1)
    | none => key

def findFreeKey (textures : List (String × String)) (candidate value : String) : String :=
  findFreeKeyAux textures candidate value (textures.length + 1) 0

/-- `mergeChildTextures` (962-993): merge the child's textures into the
    parent under collision-safe renamed keys, returning the updated parent
    textures and the child-key → final-key mapping. -/
def mergeChildTextures (parentTex childTex : List (String × String))
    (childName : String) : List (String × String) × List (String × String) :=
  childTex.foldl (fun acc kv =>
    let textures := acc.1
    let mapping := acc.2
    if kv.2.isEmpty then acc
    else
      let candidate :=
        if kv.1 == "particle" then
          if !truthyS (mapGet? textures "particle")
              || mapGet? textures "particle" == some kv.2 then "particle"
          else childName ++ "_particle"
        else childName ++ "_" ++ kv.1
      let finalKey := findFreeKey textures candidate kv.2
      (mapSet textures finalKey kv.2, mapSet mapping kv.1 finalKey)) (parentTex, [])

/-- `remapElementTextures` (995-1013): rewrite `#var` face references
    through the merge mapping. -/
def remapFaceTexture (mapping : List (String × String)) (f : RawModelFace) : RawModelFace :=
  if f.texture.isEmpty then f
  else if !jsStartsWith f.texture "#" then f
  else
    match mapGet? mapping (strDrop f.texture 1) with
    | some m => if m.isEmpty then f else { f with texture := "#" ++ m }
    | none => f

def remapElementTextures (mapping : List (String × String)) : ModelElem → ModelElem
  | .cub e => .cub (e.setFaces (e.faces.map fun p => (p.1, remapFaceTexture mapping p.2)))
  | .obj o => .obj o

/-- `flattenCompositeChildren` (932-960): depth-first flatten nested
    composite child models into the parent's element list, merging each
    child's textures first. -/
def flattenCompositeChildren (m : RawBlockModel) : RawBlockModel :=
  match m with
  | .mk parent textures elements loader mdl display children =>
    match children with
    | none => .mk parent textures elements loader mdl display none
    | some entries =>
      if entries.isEmpty then .mk parent textures elements loader mdl display none
      else
        let res := entries.attach.foldl
          (fun (acc : List (String × String) × List ModelElem) ce =>
            let fc := flattenCompositeChildren ce.1.2
            let tm := mergeChildTextures acc.1 fc.textures ce.1.1
            match fc.elements with
            | none => (tm.1, acc.2)
            | some childEls => (tm.1, acc.2 ++ childEls.map (remapElementTextures tm.2)))
          (textures, elements.getD [])
        .mk parent res.1 (some res.2) loader mdl display none
termination_by sizeOf m
decreasing_by
  have h1 := List.sizeOf_lt_of_mem ce.2
  have h2 : sizeOf ce.1.2 < sizeOf ce.1 := by
    obtain ⟨a, b⟩ := ce.1
    simp
  simp only [RawBlockModel.mk.sizeOf_spec, Option.some.sizeOf_spec]
  omega

end SchemLoader

namespace SchemLoader

/-- `buildFunnelFallback` (1633-1669): synthesize a funnel-family model
    descriptor for a missing model id. -/
def buildFunnelFallback (modelId : String) : Option RawBlockModel :=
  if !jsStartsWith modelId "create:block/" then none
  else
    let name := strDrop modelId 13
    if !jsIncludes name "funnel" then none
    else
      let textures : List (String × String) :=
        [("back", "create:block/funnel/funnel_open"),
         ("base", "create:block/funnel/funnel_open"),
         ("direction",
           if jsIncludes name "push" then "create:block/funnel/funnel_closed"
           else "create:block/funnel/funnel_open"),
         ("redstone", "create:block/funnel/funnel_closed"),
         ("particle", "create:block/brass_block"),
         ("block", "create:block/brass_block")]
      if jsIncludes name "belt_funnel" then
        let parent :=
          if jsIncludes name "extended" then "create:block/belt_funnel/block_extended"
          else if jsIncludes name "pulling" then "create:block/belt_funnel/block_pulling"
          else if jsIncludes name "pushing" then "create:block/belt_funnel/block_pushing"
          else "create:block/belt_funnel/block_retracted"
        some (.mk (some parent) textures none none none none none)
      else
        let parent :=
          if jsIncludes name "vertical" then
            if jsIncludes name "filterless" then "create:block/funnel/block_vertical_filterless"
            else "create:block/funnel/block_vertical"
          else "create:block/funnel/block_horizontal"
        some (.mk (some parent) textures none none none none none)

/-- `patchTunnelFlaps` (1351-1408): inject static flap elements into belt
    tunnel models (cloning elements from the fetched parent if absent). -/
def tunnelFlapSegments : List (ℚ × ℚ) := [(2, 5), (5, 8), (8, 11), (11, 14)]

def makeTunnelFlap (texKey : String) (efrom eto : Vec3) (rotateDown rotateUp : Int) :
    RawModelElement :=
  .mk (some "Flap") efrom eto
    (some { origin := ⟨8, 8, 8⟩, axis := "y", angle := 0, rescale := none })
    [("north", { uv := some (6, 8, 6.5, 14.5), texture := texKey,
                 cullface := none, rotation := none, tintindex := none }),
     ("east", { uv := some (6, 8, 7.5, 14.5), texture := texKey,
                cullface := none, rotation := some 180, tintindex := none }),
     ("south", { uv := some (7, 8, 7.5, 14.5), texture := texKey,
                 cullface := none, rotation := none, tintindex := none }),
     ("west", { uv := some (6, 8, 7.5, 14.5), texture := texKey,
                cullface := none, rotation := none, tintindex := none }),
     ("up", { uv := some (6, 8.5, 7.5, 8), texture := texKey,
              cullface := none, rotation := some rotateUp, tintindex := none }),
     ("down", { uv := some (6, 14, 7.5, 14.5), texture := texKey,
                cullface := none, rotation := some rotateDown, tintindex := none })]
    none []

def elemNameLower : ModelElem → String
  | .cub c => jsToLower (c.name.getD "")
  | .obj _ => ""

def patchTunnelFlaps (fetched : List (String × RawBlockModel)) (m : RawBlockModel)
    (cleanPath : String) : RawBlockModel :=
  if !jsStartsWith cleanPath "create:block/belt_tunnel/"
      && !jsStartsWith cleanPath "create:block/tunnel/" then m
  else
    let m1 :=
      if (m.elements.getD []).isEmpty then
        if truthyS m.parent then
          match (mapGet? fetched (normalizePath (m.parent.getD ""))).bind (·.elements) with
          | some pe => m.setElements (some pe)
          | none => m
        else m
      else m
    if (m1.elements.getD []).isEmpty then m1
    else if (m1.elements.getD []).any (fun e => jsIncludes (elemNameLower e) "flap") then m1
    else
      let back := mapGet? m1.textures "back"
      let tex2 :=
        if truthyS back then m1.textures
        else
          if (mapGet? m1.textures "_flap").isSome then m1.textures
          else mapSet m1.textures "_flap" "create:block/funnel/funnel_back"
      let texKey := if truthyS back then "#back" else "#_flap"
      let els := m1.elements.getD []
      let leftFlaps := tunnelFlapSegments.map fun sz =>
        makeTunnelFlap texKey ⟨0.5, -2.5, sz.1⟩ ⟨1.5, 10.5, sz.2⟩ 270 90
      let rightFlaps := tunnelFlapSegments.reverse.map fun sz =>
        makeTunnelFlap texKey ⟨14.5, -2.5, sz.1⟩ ⟨15.5, 10.5, sz.2⟩ 90 270
      (m1.setTextures tex2).setElements
        (some (els ++ leftFlaps.map ModelElem.cub ++ rightFlaps.map ModelElem.cub))

/-- `patchMechanicalRoller` (1410-1455): every reachable statement returns
    early or does nothing — the transformation block is commented out. -/
def patchMechanicalRoller (model : RawBlockModel) (cleanPath : String) : RawBlockModel :=
  if (!jsIncludes cleanPath "mechanical_roller" && !jsIncludes cleanPath "crushing_wheel")
      || !jsIncludes cleanPath "wheel" then model
  else if !jsIncludes cleanPath "mechanical_roller" then model
  else
    match model.elements with
    | none => model
    | some _ => model

/-- `collectTextures` (1057-1060): textures of the parent chain, child
    entries overriding.  The source recursion has no cycle guard (a cyclic
    parent chain in the cache overflows the stack); the model truncates at
    `fuel`, which callers pass larger than any real chain. -/
def collectTextures (fetched : List (String × RawBlockModel)) :
    Nat → RawBlockModel → List (String × String)
  | 0, m => m.textures
  | fuel + 1, m =>
    let acc :=
      if truthyS m.parent then
        collectTextures fetched fuel
          ((mapGet? fetched (normalizePath (m.parent.getD ""))).getD emptyModel)
      else []
    spreadMerge acc m.textures

/-! OBJ material alias tables (1063-1139) and the generic remap (1141-1173) -/

def crushingWheelMap : List (String × String) :=
  [("crushing_wheel_insert", "insert"), ("crushing_wheel_plates", "plates"),
   ("m_axis", "axis"), ("m_axis_top", "axis_top"), ("m_spruce_log_top", "spruce_log_top")]

def rollerMap : List (String × String) := [("roller_wheel", "wheel")]

def chainConveyorMap : List (String × String) :=
  [("casing", "conveyor_casing"), ("bullwheel", "bullwheel"), ("axis", "axis"),
   ("axis_top", "axis_top"), ("port", "conveyor_port")]

def waterWheelMap : List (String × String) :=
  [("waterwheel_log", "log"), ("waterwheel_plank", "planks"),
   ("waterwheel_metal", "metal"), ("waterwheel_stripped_log", "log_top"),
   ("axis", "axis"), ("axis_top", "axis_top")]

def valveHandleMap : List (String × String) := [("Material", "3")]

def applyMaterialMap (table : List (String × String)) (parts : List ObjMeshPart) :
    List ObjMeshPart :=
  parts.map fun part =>
    match mapGet? table part.texture with
    | some mapped => if mapped.isEmpty then part else { part with texture := mapped }
    | none => part

def applyFamilyMaps (cleanPath : String) (parts : List ObjMeshPart) : List ObjMeshPart :=
  let p1 := if jsIncludes cleanPath "crushing_wheel" then
      applyMaterialMap crushingWheelMap parts else parts
  let p2 := if jsIncludes cleanPath "mechanical_roller" then
      applyMaterialMap rollerMap p1 else p1
  let p3 := if jsIncludes cleanPath "chain_conveyor" then
      applyMaterialMap chainConveyorMap p2 else p2
  let p4 := if jsIncludes cleanPath "water_wheel" || jsIncludes cleanPath "large_water_wheel" then
      applyMaterialMap waterWheelMap p3 else p3
  if jsIncludes cleanPath "valve_handle" then applyMaterialMap valveHandleMap p4 else p4

def genericObjRemap (availableTextures : List (String × String))
    (parts : List ObjMeshPart) : List ObjMeshPart :=
  let textureKeys := availableTextures.map Prod.fst
  let defaultKey : Option String := if textureKeys.contains "0" then some "0" else none
  parts.map fun part =>
    if textureKeys.contains part.texture then part
    else
      let stripped := if jsStartsWith part.texture "m_" then strDrop part.texture 2
        else part.texture
      if textureKeys.contains stripped then { part with texture := stripped }
      else
        let noHash := if jsStartsWith stripped "#" then strDrop stripped 1 else stripped
        if textureKeys.contains noHash then { part with texture := noHash }
        else
          match defaultKey with
          | some d => { part with texture := d }
          | none => part

end SchemLoader

namespace SchemLoader

/-! ## Pure blockstate patchers (`patchBeltDefinition` 485-581,
    `patchEncasedCogDefinition` 583-621, `patchEncasedPipeDefinition`
    623-650, `patchFluidPipeConnectionRules` 703-729) -/

/-- Lines 508-557: base models for one belt state. -/
def beltModelsFor (props : List (String × String)) : List String :=
  let casing := mapGet? props "casing" == some "true"
  if mapGet? props "slope" == some "horizontal" then
    if mapGet? props "part" == some "middle" then
      ["create:block/belt/middle", "create:block/belt/middle_bottom"]
        ++ (if casing then ["create:block/belt_casing/horizontal_middle"] else [])
    else if mapGet? props "part" == some "start" then
      ["create:block/belt/start", "create:block/belt/start_bottom"]
        ++ (if casing then ["create:block/belt_casing/horizontal_start"] else [])
    else if mapGet? props "part" == some "end" then
      ["create:block/belt/end", "create:block/belt/end_bottom"]
        ++ (if casing then ["create:block/belt_casing/horizontal_end"] else [])
    else if mapGet? props "part" == some "pulley" then
      ["create:block/belt_pulley"]
        ++ (if casing then ["create:block/belt_casing/horizontal_pulley"] else [])
    else []
  else
    if mapGet? props "part" == some "middle" then
      ["create:block/belt/diagonal_middle"]
        ++ (if casing then ["create:block/belt_casing/diagonal_middle"] else [])
    else if mapGet? props "part" == some "start" then
      ["create:block/belt/diagonal_start"]
        ++ (if casing then ["create:block/belt_casing/diagonal_start"] else [])
    else if mapGet? props "part" == some "end" then
      ["create:block/belt/diagonal_end"]
        ++ (if casing then ["create:block/belt_casing/diagonal_end"] else [])
    else if mapGet? props "part" == some "pulley" then
      (if casing then ["create:block/belt_casing/diagonal_pulley"] else [])
    else []

def patchBeltDefinition (def0 : RawBlockState) : RawBlockState :=
  match def0.variants with
  | none => def0
  | some vs =>
    let multipart := vs.foldl (fun acc kv =>
      let props := parseWhenPairs kv.1
      let original : Option RawVariant :=
        match kv.2 with
        | .one v => some v
        | .many l => l.head?
        | .vnull => none
      match original with
      | none => acc
      | some orig =>
        let models := beltModelsFor props
        let models := if models.isEmpty then ["create:block/belt/particle"] else models
        acc ++ models.map fun mdl =>
          ({ when := some (.props props),
             apply := .one { model := some mdl, x := orig.x, y := orig.y, z := none,
                             uvlock := orig.uvlock, weight := none } } : RawMultipartCase)) []
    { def0 with variants := none, multipart := some multipart }

/-- The `ensureMultipart` conversion shared by `patchEncasedCogDefinition`
    (587-602), `injectMechanicalCrafterGears` (1507-1529) and
    `injectMechanicalArmCog` (1599-1615); all three parse state keys with
    the same split-and-skip rule (the `if (!key)` / `if (!pair)` guards of
    the two inline variants only skip pairs the key parser drops anyway). -/
def ensureMultipartConvert (def0 : RawBlockState) : RawBlockState :=
  let mp0 := def0.multipart.getD []
  match def0.variants with
  | some vs =>
    let mp := vs.foldl (fun acc kv =>
      acc ++ (variantValList kv.2).map fun a? =>
        ({ when := parseWhen kv.1, apply := applyOf a? } : RawMultipartCase)) mp0
    { def0 with variants := none, multipart := some mp }
  | none => { def0 with multipart := some mp0 }

def axisTriple (mdl : String) : List RawMultipartCase :=
  [⟨some (.props [("axis", "y")]), .one (mkVariant mdl)⟩,
   ⟨some (.props [("axis", "x")]), .one { mkVariant mdl with x := some 90, y := some 90 }⟩,
   ⟨some (.props [("axis", "z")]), .one { mkVariant mdl with x := some 90 }⟩]

def patchEncasedCogDefinition (def0 : RawBlockState) (id : String) : RawBlockState :=
  let d := ensureMultipartConvert def0
  let mp := d.multipart.getD []
  let mp :=
    if jsIncludes id "encased_cogwheel" then
      mp ++ axisTriple (if jsIncludes id "large" then "create:block/large_cogwheel_shaftless"
        else "create:block/cogwheel_shaftless")
    else mp
  let mp :=
    if jsIncludes id "encased_shaft" then mp ++ axisTriple "create:block/shaft"
    else mp
  { d with multipart := some mp }

def encasedPipeConnections : List (List (String × String) × String) :=
  [([("up", "true")], "create:block/fluid_pipe/u_x"),
   ([("down", "true")], "create:block/fluid_pipe/d_x"),
   ([("south", "true")], "create:block/fluid_pipe/l_x"),
   ([("north", "true")], "create:block/fluid_pipe/r_x"),
   ([("east", "true")], "create:block/fluid_pipe/l_y"),
   ([("west", "true")], "create:block/fluid_pipe/r_y")]

def patchEncasedPipeDefinition (def0 : RawBlockState) : RawBlockState :=
  let mp := def0.multipart.getD []
  let mp := mp ++
    [⟨some (.orC [[]]), .one (mkVariant "create:block/fluid_pipe/core_x")⟩,
     ⟨some (.orC [[]]), .one (mkVariant "create:block/fluid_pipe/core_y")⟩,
     ⟨some (.orC [[]]), .one (mkVariant "create:block/fluid_pipe/core_z")⟩]
  let mp := mp ++ encasedPipeConnections.map fun r =>
    (⟨some (.props r.1), .one (mkVariant r.2)⟩ : RawMultipartCase)
  { def0 with multipart := some mp }

def fluidPipeFallbackRules : List (List (String × String) × String) :=
  [([("up", "true")], "create:block/fluid_pipe/u_x"),
   ([("down", "true")], "create:block/fluid_pipe/d_x"),
   ([("north", "true")], "create:block/fluid_pipe/r_x"),
   ([("south", "true")], "create:block/fluid_pipe/l_x"),
   ([("east", "true")], "create:block/fluid_pipe/l_z"),
   ([("west", "true")], "create:block/fluid_pipe/r_z")]

def patchFluidPipeConnectionRules (def0 : RawBlockState) : RawBlockState :=
  let mp := def0.multipart.getD []
  let mp := mp ++ fluidPipeFallbackRules.map fun r =>
    (⟨some (.props r.1), .one (mkVariant r.2)⟩ : RawMultipartCase)
  { def0 with multipart := some mp }

/-- `extractModelsFromDefinition` (1709-1745): the set of model ids
    referenced by a descriptor, in encounter order. -/
def addModelOf (acc : List String) (v : RawVariant) : List String :=
  if truthyS v.model then setAdd acc (v.model.getD "") else acc

def extractModelsFromDefinition (def0 : RawBlockState) : List String :=
  let s1 :=
    match def0.variants with
    | some vs => vs.foldl (fun acc kv =>
        match kv.2 with
        | .vnull => acc
        | .many l => l.foldl addModelOf acc
        | .one v => addModelOf acc v) []
    | none => []
  match def0.multipart with
  | some parts => parts.foldl (fun acc part =>
      match part.apply with
      | .anull => acc
      | .many l => l.foldl addModelOf acc
      | .one v => addModelOf acc v) s1
  | none => s1

/-- `getSubpartCandidates` (184-226). -/
def getSubpartCandidates (manifest : List String) (baseModel : String) : List String :=
  let nsPath := if jsIncludes baseModel ":" then jsSplitCharLimit baseModel ':' 2
    else ["create", baseModel]
  let ns := nsPath.getD 0 ""
  let path := nsPath.getD 1 ""
  let parts := jsSplitChar path '/'
  let dirs1 : List String :=
    if parts.length ≥ 3 && (parts.getD 0 "" == "block") then
      setAdd [] (ns ++ ":" ++ parts.getD 0 "" ++ "/" ++ parts.getD 1 "")
    else []
  let lowerPath := jsToLower path
  let dirs2 := if jsIncludes lowerPath "funnel" then
      setAdd (setAdd dirs1 (ns ++ ":block/funnel")) (ns ++ ":block/belt_funnel")
    else dirs1
  let dirs3 := if jsIncludes lowerPath "tunnel" then
      setAdd (setAdd dirs2 (ns ++ ":block/tunnel")) (ns ++ ":block/belt_tunnel")
    else dirs2
  let baseDir := dirOf baseModel
  let dirs4 := if baseDir != ns ++ ":block" then setAdd dirs3 baseDir else dirs3
  dirs4.foldl (fun cands dir =>
    manifest.foldl (fun cands p =>
      if !jsStartsWith p (dir ++ "/") then cands
      else if p == baseModel then cands
      else if SUBPART_TOKENS.any (fun t => jsIncludes (lastComp p) t) then cands ++ [p]
      else cands) cands) []

end SchemLoader

namespace SchemLoader

/-! ## The loader monad

    Mutable `CreateModLoader` fields become `LoaderSt`; the readonly
    constructor arguments become `Config`.  The resource provider is an
    oracle typed per call-site cast (`getJson` results are cast to
    `RawBlockState` at blockstate paths and `RawBlockModel` at model
    paths), with `none` covering both a provider rejection (the `fetch*`
    wrappers catch and return null) and an absent file.  `trace` is
    instrumentation recording every provider request path.  `definitions`
    models the `loadBlocks` local accumulator, whose mutations — like all
    class-field mutations — survive the per-block `catch`; JS exceptions
    (`throwJs`) preserve state.  `fuel` bounds the parent-chain recursion,
    which the source leaves unbounded (a reference cycle is cut by the
    visited-set; a fresh-id chain longer than `fuel` is truncated). -/

structure Blob where
  bytes : List Nat
deriving DecidableEq, Repr

/-- deepslate `BlockDefinition.fromJson` (external): opaque wrapper. -/
structure BlockDefinition where
  raw : RawBlockState
deriving DecidableEq, Repr

/-- deepslate extension `createBlockModelFromJson` (external): opaque wrapper. -/
structure BlockModel where
  raw : RawBlockModel

structure Provider where
  states : String → Option RawBlockState
  models : String → Option RawBlockModel
  texts : String → Option String
  blobs : String → Option Blob

structure Config where
  provider : Provider
  enableAutoSubparts : Bool
  modelManifest : List String

structure LoaderSt where
  fetchedBlockModels : List (String × RawBlockModel)
  fetchedTextures : List (String × Blob)
  visitedModels : List String
  missingResources : List String
  autoSubpartLog : List AutoSubpartEntry
  definitions : List (String × BlockDefinition)
  trace : List String

def emptySt : LoaderSt := ⟨[], [], [], [], [], [], []⟩

def LoadM (α : Type) : Type := LoaderSt → LoaderSt × Except Unit α

instance : Monad LoadM where
  pure a := fun s => (s, .ok a)
  bind x f := fun s =>
    match x s with
    | (s1, .ok a) => f a s1
    | (s1, .error e) => (s1, .error e)

def getSt : LoadM LoaderSt := fun s => (s, .ok s)

def modifySt (f : LoaderSt → LoaderSt) : LoadM Unit := fun s => (f s, .ok ())

def throwJs {α : Type} : LoadM α := fun s => (s, .error ())

def catchJs (x : LoadM α) (h : LoadM α) : LoadM α := fun s =>
  match x s with
  | (s1, .ok a) => (s1, .ok a)
  | (s1, .error _) => h s1

def forEachM (l : List α) (f : α → LoadM Unit) : LoadM Unit :=
  l.foldlM (fun _ a => f a) ()

def fetchStateJson (P : Provider) (path : String) : LoadM (Option RawBlockState) :=
  fun s => ({ s with trace := s.trace ++ [path] }, .ok (P.states path))

def fetchModelJson (P : Provider) (path : String) : LoadM (Option RawBlockModel) :=
  fun s => ({ s with trace := s.trace ++ [path] }, .ok (P.models path))

def fetchTextM (P : Provider) (path : String) : LoadM (Option String) :=
  fun s => ({ s with trace := s.trace ++ [path] }, .ok (P.texts path))

def fetchBlobM (P : Provider) (path : String) : LoadM (Option Blob) :=
  fun s => ({ s with trace := s.trace ++ [path] }, .ok (P.blobs path))

/-! ## `loadTexture` (1671-1696) and `loadFlowTextureForFluid` (1698-1707) -/

mutual

def loadTexture (P : Provider) : Nat → String → LoadM Unit
  | 0, _ => pure ()
  | fuel + 1, texturePath => do
    let cleanPath := normalizePath texturePath
    if !jsStartsWith cleanPath "create:" then pure ()
    else do
      let s ← getSt
      if mapHas s.fetchedTextures cleanPath then pure ()
      else do
        let blob? ← fetchBlobM P ("textures/" ++ jsReplaceFirst cleanPath "create:" "" ++ ".png")
        match blob? with
        | some blob => do
          modifySt fun s => { s with fetchedTextures := mapSet s.fetchedTextures cleanPath blob }
          loadFlowTextureForFluid P fuel cleanPath
        | none =>
          modifySt fun s =>
            { s with missingResources := setAdd s.missingResources ("Texture: " ++ cleanPath) }

def loadFlowTextureForFluid (P : Provider) : Nat → String → LoadM Unit
  | 0, _ => pure ()
  | fuel + 1, stillPath =>
    if !jsIncludes stillPath "/fluid/" || !jsIncludes stillPath "_still" then pure ()
    else do
      let flowPath := jsReplaceFirst stillPath "_still" "_flow"
      let s ← getSt
      if mapHas s.fetchedTextures flowPath then pure ()
      else loadTexture P fuel flowPath

end

end SchemLoader

namespace SchemLoader

/-! ## `loadModelRecursive` (1015-1272) and the patches it awaits.

    The branches are factored into named helpers parameterized by
    `loadRec`, the recursive `this.loadModelRecursive` reference; the
    driver ties the knot with one unit of fuel per nesting level. -/

/-- The OBJ loader branch (1038-1193); calls no recursive model load, only
    `loadTexture`. -/
def objBranch (cfg : Config) (fuel : Nat) (cleanPath : String)
    (modelJson : RawBlockModel) : LoadM RawBlockModel := do
  match modelJson.model with
  | none => pure modelJson
  | some objPathSrc =>
    if objPathSrc.isEmpty then pure modelJson
    else do
      let objPath := if jsEndsWith objPathSrc ".obj" then objPathSrc else objPathSrc ++ ".obj"
      let relativeRef := if jsStartsWith objPath "create:" then strDrop objPath 7 else objPath
      let cleanRelPath := if jsStartsWith relativeRef "models/" then strDrop relativeRef 7
        else relativeRef
      let objText? ← fetchTextM cfg.provider ("models/" ++ cleanRelPath)
      match objText? with
      | some objText =>
        match parseObj objText with
        | .error _ => throwJs
        | .ok parts0 => do
          let s ← getSt
          let availableTextures := collectTextures s.fetchedBlockModels fuel modelJson
          let parts1 := applyFamilyMaps cleanPath parts0
          let parts2 := genericObjRemap availableTextures parts1
          forEachM availableTextures (fun kv =>
            if !kv.2.isEmpty && !jsStartsWith kv.2 "#" then loadTexture cfg.provider fuel kv.2
            else pure ())
          pure (modelJson.setElements (some (parts2.map ModelElem.obj)))
      | none => pure (modelJson.setElements (some []))

/-- `patchKineticPoses` (1274-1299). -/
def patchKineticPosesF (loadRec : String → LoadM Unit) (modelJson : RawBlockModel)
    (cleanPath : String) : LoadM RawBlockModel := do
  if cleanPath == "create:block/mechanical_arm/block" then do
    loadRec "create:block/mechanical_arm/item"
    let s ← getSt
    match mapGet? s.fetchedBlockModels "create:block/mechanical_arm/item" with
    | none => pure modelJson
    | some itemModel => do
      let bct := splitMechanicalArmElements itemModel
      let modelJson1 :=
        if !bct.1.isEmpty then
          (modelJson.setElements
            (some ((translateElements bct.1 0 16 0).map ModelElem.cub))).setTextures
            (spreadMerge modelJson.textures bct.2.2)
        else modelJson
      let cogModel : RawBlockModel :=
        .mk (some "block/block") bct.2.2
          (some ((translateElements bct.2.1 0 16 0).map ModelElem.cub)) none none none none
      (if !bct.2.1.isEmpty
          && !mapHas s.fetchedBlockModels "create:block/mechanical_arm/cog" then
        modifySt fun s2 =>
          { s2 with fetchedBlockModels :=
              mapSet s2.fetchedBlockModels "create:block/mechanical_arm/cog" cogModel }
      else pure ())
      pure modelJson1
  else pure modelJson

/-- `ensureFactoryGaugeGeometry` (1301-1319). -/
def ensureFactoryGaugeF (loadRec : String → LoadM Unit) (modelJson : RawBlockModel)
    (cleanPath : String) : LoadM RawBlockModel := do
  if cleanPath != "create:block/factory_gauge/block" then pure modelJson
  else if !(modelJson.elements.getD []).isEmpty then pure modelJson
  else do
    loadRec "create:block/factory_gauge/panel"
    let s ← getSt
    match mapGet? s.fetchedBlockModels "create:block/factory_gauge/panel" with
    | none => pure modelJson
    | some panel =>
      match panel.elements with
      | none => pure modelJson
      | some pe =>
        let m1 := (modelJson.setElements (some pe)).setTextures
          (spreadMerge modelJson.textures panel.textures)
        pure (if m1.display.isNone && panel.display.isSome then m1.setDisplay panel.display
          else m1)

/-- The fetched-descriptor path of `loadModelRecursive` (1033-1227). -/
def loadFetchedModelF (cfg : Config) (fuel : Nat) (loadRec : String → LoadM Unit)
    (cleanPath : String) (modelJson0 : RawBlockModel) : LoadM Unit := do
  (if truthyS modelJson0.parent then loadRec (modelJson0.parent.getD "") else pure ())
  let isObj :=
    match modelJson0.loader with
    | some l => !l.isEmpty && jsIncludes l "obj"
    | none => false
  let modelJson1 ← if isObj then objBranch cfg fuel cleanPath modelJson0 else pure modelJson0
  let incObj :=
    match modelJson1.loader with
    | some l => jsIncludes l "obj"
    | none => false
  (if truthyS modelJson1.parent && !incObj then loadRec (modelJson1.parent.getD "")
   else pure ())
  let modelJson2 := flattenCompositeChildren modelJson1
  match patchFunnelFlap modelJson2 cleanPath with
  | .error _ => throwJs
  | .ok modelJson3 => do
    let s ← getSt
    let modelJson4 := patchTunnelFlaps s.fetchedBlockModels modelJson3 cleanPath
    let modelJson5 ← patchKineticPosesF loadRec modelJson4 cleanPath
    let modelJson6 := patchMechanicalRoller modelJson5 cleanPath
    let modelJson7 ← ensureFactoryGaugeF loadRec modelJson6 cleanPath
    modifySt fun s2 =>
      { s2 with fetchedBlockModels := mapSet s2.fetchedBlockModels cleanPath modelJson7 }
    forEachM modelJson7.textures (fun kv =>
      if !kv.2.isEmpty && !jsStartsWith kv.2 "#" then loadTexture cfg.provider fuel kv.2
      else pure ())

/-- The missing-descriptor path of `loadModelRecursive` (1228-1271). -/
def missingModelBranchF (cfg : Config) (fuel : Nat) (loadRec : String → LoadM Unit)
    (cleanPath : String) : LoadM Unit := do
  match buildFunnelFallback cleanPath with
  | some synthetic0 => do
    let synthetic := flattenCompositeChildren synthetic0
    modifySt fun s =>
      { s with fetchedBlockModels := mapSet s.fetchedBlockModels cleanPath synthetic }
    (if truthyS synthetic.parent then loadRec (synthetic.parent.getD "") else pure ())
    forEachM synthetic.textures (fun kv =>
      if !kv.2.isEmpty && !jsStartsWith kv.2 "#" then loadTexture cfg.provider fuel kv.2
      else pure ())
  | none =>
    if jsIncludes cleanPath "smart_" then do
      let fallbackPath := jsReplaceFirst cleanPath "smart_" ""
      let fallbackJson? ← fetchModelJson cfg.provider
        ("models/" ++ jsReplaceFirst fallbackPath "create:" "" ++ ".json")
      match fallbackJson? with
      | some fb0 => do
        let fb := flattenCompositeChildren fb0
        modifySt fun s =>
          { s with fetchedBlockModels := mapSet s.fetchedBlockModels cleanPath fb }
        (if truthyS fb.parent then loadRec (fb.parent.getD "") else pure ())
        forEachM fb.textures (fun kv =>
          if !kv.2.isEmpty && !jsStartsWith kv.2 "#" then loadTexture cfg.provider fuel kv.2
          else pure ())
      | none =>
        modifySt fun s =>
          { s with missingResources := setAdd s.missingResources ("Model: " ++ cleanPath) }
    else
      modifySt fun s =>
        { s with missingResources := setAdd s.missingResources ("Model: " ++ cleanPath) }

def loadModelRec (cfg : Config) : Nat → String → LoadM Unit
  | 0, _ => pure ()
  | fuel + 1, modelPath => do
    let cleanPath := normalizePath modelPath
    let s ← getSt
    if s.visitedModels.contains cleanPath then pure ()
    else if mapHas s.fetchedBlockModels cleanPath then
      modifySt fun s2 => { s2 with visitedModels := setAdd s2.visitedModels cleanPath }
    else do
      modifySt fun s2 => { s2 with visitedModels := setAdd s2.visitedModels cleanPath }
      if !jsStartsWith cleanPath "create:" then pure ()
      else do
        let modelJson? ← fetchModelJson cfg.provider
          ("models/" ++ jsReplaceFirst cleanPath "create:" "" ++ ".json")
        match modelJson? with
        | some modelJson0 =>
          loadFetchedModelF cfg fuel (loadModelRec cfg fuel) cleanPath modelJson0
        | none => missingModelBranchF cfg fuel (loadModelRec cfg fuel) cleanPath

end SchemLoader

namespace SchemLoader

/-- `ensureSpoutNozzles` (479-483). -/
def ensureSpoutNozzlesM (cfg : Config) (fuel : Nat) : LoadM Unit :=
  forEachM spoutNozzles (loadModelRec cfg fuel)

/-- `preloadSubpartModels` (170-182). -/
def preloadSubpartModels (cfg : Config) (fuel : Nat) (modelPaths : List String) :
    LoadM Unit := do
  let _ ← modelPaths.foldlM (fun (queued : List String) mdl => do
    (getSubpartCandidates cfg.modelManifest (normalizePath mdl)).foldlM
      (fun (queued : List String) candidate => do
        if queued.contains candidate then pure queued
        else do
          loadModelRec cfg fuel candidate
          pure (setAdd queued candidate)) queued) ([] : List String)
  pure ()

/-- `injectMechanicalCrafterGears` (1485-1557). -/
def injectMechanicalCrafterGears (cfg : Config) (fuel : Nat) (def0 : RawBlockState) :
    LoadM RawBlockState := do
  if def0.gearsInjected then pure def0
  else do
    loadModelRec cfg fuel "create:block/mechanical_crafter/item"
    let s ← getSt
    match mapGet? s.fetchedBlockModels "create:block/mechanical_crafter/item" with
    | none => pure def0
    | some itemModel =>
      match itemModel.elements with
      | none => pure def0
      | some els =>
        let gears := els.filterMap fun e =>
          match e with
          | .cub c => if isGearElem c then some c else none
          | .obj _ => none
        if gears.isEmpty then pure def0
        else do
          let horizModel : RawBlockModel :=
            .mk (some "block/block") itemModel.textures (some (gears.map ModelElem.cub))
              none none none none
          let vertModel : RawBlockModel :=
            .mk (some "block/block") itemModel.textures
              (some ((rotateElementsX90 gears).map ModelElem.cub)) none none none none
          modifySt fun s2 =>
            let m1 := mapSet s2.fetchedBlockModels
              "create:block/mechanical_crafter/gears_horizontal" horizModel
            let m2 := mapSet m1 "create:block/mechanical_crafter/gears_vertical" vertModel
            { s2 with fetchedBlockModels := m2 }
          let d := ensureMultipartConvert def0
          let baseParts := d.multipart.getD []
          let mp := baseParts.foldl (fun acc part =>
            match part.apply with
            | .anull => acc
            | _ =>
              let applyFst : Option RawVariant :=
                match part.apply with
                | .one v => some v
                | .many vs => vs.head?
                | .anull => none
              let facing : Option String :=
                match part.when with
                | some (.props ps) => if mapHas ps "facing" then mapGet? ps "facing" else none
                | _ => none
              let extraX : Int :=
                match facing with
                | some f => if f == "down" then 180 else if f == "up" then 0 else 90
                | none => 90
              let rotX := Int.tmod ((applyFst.bind (·.x)).getD 0 + extraX) 360
              let rotY := Int.tmod ((applyFst.bind (·.y)).getD 0 + 0) 360
              acc ++ [⟨part.when,
                .one { mkVariant "create:block/mechanical_crafter/gears_horizontal" with
                  x := some rotX, y := some rotY, uvlock := applyFst.bind (·.uvlock) }⟩])
            baseParts
          pure { d with multipart := some mp, gearsInjected := true }

/-- `injectMechanicalArmCog` (1559-1631). -/
def injectMechanicalArmCog (cfg : Config) (fuel : Nat) (def0 : RawBlockState) :
    LoadM RawBlockState := do
  if def0.armCogInjected then pure def0
  else do
    loadModelRec cfg fuel "create:block/mechanical_arm/item"
    let s ← getSt
    match mapGet? s.fetchedBlockModels "create:block/mechanical_arm/item" with
    | none => pure def0
    | some itemModel =>
      let bct := splitMechanicalArmElements itemModel
      if bct.2.1.isEmpty then pure def0
      else do
        let cogModel : RawBlockModel :=
          .mk (some "block/block") bct.2.2
            (some ((translateElements bct.2.1 0 16 0).map ModelElem.cub)) none none none none
        (if !mapHas s.fetchedBlockModels "create:block/mechanical_arm/cog" then
          modifySt fun s2 =>
            { s2 with fetchedBlockModels :=
                mapSet s2.fetchedBlockModels "create:block/mechanical_arm/cog" cogModel }
        else pure ())
        let d := ensureMultipartConvert def0
        let baseParts := d.multipart.getD []
        let mp := baseParts.foldl (fun acc part =>
          match part.apply with
          | .anull => acc
          | _ =>
            (applyList part.apply).foldl (fun acc a? =>
              let rotX := Int.tmod ((a?.bind (·.x)).getD 0) 360
              let rotY := Int.tmod ((a?.bind (·.y)).getD 0) 360
              acc ++ [⟨part.when, .one { mkVariant "create:block/mechanical_arm/cog" with
                x := some rotX, y := some rotY, uvlock := a?.bind (·.uvlock) }⟩]) acc)
          baseParts
        pure { d with multipart := some mp, armCogInjected := true }

/-- The per-block body of `loadBlocks` (64-119), inside the try. -/
def loadBlockBody (cfg : Config) (fuel : Nat) (id : String) : LoadM Unit := do
  let defJson? ← fetchStateJson cfg.provider
    ("blockstates/" ++ jsReplaceFirst id "create:" "" ++ ".json")
  match defJson? with
  | none =>
    modifySt fun s =>
      { s with missingResources := setAdd s.missingResources ("Blockstate: " ++ id) }
  | some defJson0 => do
    let d1 ←
      if id == "create:mechanical_crafter" then injectMechanicalCrafterGears cfg fuel defJson0
      else if id == "create:mechanical_arm" then injectMechanicalArmCog cfg fuel defJson0
      else pure defJson0
    (if id == "create:spout" then ensureSpoutNozzlesM cfg fuel else pure ())
    let d2 :=
      if id == "create:belt" then patchBeltDefinition d1
      else if id == "create:encased_fluid_pipe" then patchEncasedPipeDefinition d1
      else if id == "create:fluid_pipe" then patchFluidPipeConnectionRules d1
      else if jsIncludes id "encased_cogwheel" || jsIncludes id "encased_shaft" then
        patchEncasedCogDefinition d1 id
      else d1
    (if jsIncludes id "mechanical_mixer" then
      loadModelRec cfg fuel "create:block/cogwheel_shaftless"
    else pure ())
    let d3 ←
      if cfg.enableAutoSubparts then do
        preloadSubpartModels cfg fuel (extractModelsFromDefinition d2)
        let s ← getSt
        let r := autoAttachSubparts (s.fetchedBlockModels.map Prod.fst) d2 id
        modifySt fun s2 => { s2 with autoSubpartLog := s2.autoSubpartLog ++ r.2 }
        pure r.1
      else pure d2
    modifySt fun s => { s with definitions := mapSet s.definitions id ⟨d3⟩ }
    forEachM (extractModelsFromDefinition d3) (loadModelRec cfg fuel)
    let extraModels :=
      (if jsIncludes id "encased_cogwheel" then
        ["create:block/cogwheel_shaftless", "create:block/large_cogwheel_shaftless"]
      else [])
      ++ (if jsIncludes id "encased_shaft" then ["create:block/shaft"] else [])
    forEachM extraModels (loadModelRec cfg fuel)

/-- One iteration of the `loadBlocks` loop (59-127): skip non-`create:`
    ids; everything else runs under the per-id try/catch. -/
def loadBlockOne (cfg : Config) (fuel : Nat) (id : String) : LoadM Unit :=
  if !jsStartsWith id "create:" then pure ()
  else catchJs (loadBlockBody cfg fuel id) (pure ())

def loadBlocksLoop (cfg : Config) (fuel : Nat) (ids : List String) : LoadM Unit :=
  forEachM ids (loadBlockOne cfg fuel)

structure LoadedAssets where
  blockDefinitions : List (String × BlockDefinition)
  blockModels : List (String × BlockModel)
  textures : List (String × Blob)

/-- `loadBlocks` lines 139-155: qualify each cached model id, patch
    fluid-pipe models in place (mutating the cache entry), and wrap into
    `BlockModel`s. -/
def finalizeModels (fetched : List (String × RawBlockModel)) :
    List (String × BlockModel) × List (String × RawBlockModel) :=
  fetched.foldl (fun acc kv =>
    let modelId := if jsIncludes kv.1 ":" then kv.1 else "create:" ++ kv.1
    let json :=
      if jsStartsWith modelId "create:block/fluid_pipe/" then
        patchPipeModelLimbs (patchPipeCoreFaces kv.2) modelId
      else kv.2
    (mapSet acc.1 modelId ⟨json⟩, mapSet acc.2 kv.1 json)) ([], [])

/-- `loadBlocks` (52-168).  The local `textures` record built at 157-161
    is dead code (the return at 166 uses `fetchedTextures` directly), so
    only the latter is modelled.  The per-id try/catch means the loop
    itself never throws. -/
def loadBlocks (cfg : Config) (fuel : Nat) (blockIds : List String) (s0 : LoaderSt) :
    LoadedAssets × LoaderSt :=
  let s1 := (loadBlocksLoop cfg fuel blockIds s0).1
  let fm := finalizeModels s1.fetchedBlockModels
  ({ blockDefinitions := s1.definitions,
     blockModels := fm.1,
     textures := s1.fetchedTextures },
   { s1 with fetchedBlockModels := fm.2 })

end SchemLoader

namespace SchemLoader

/-! ## Invariant framework over `LoadM`

    `MR s s'` combines the two facts every pipeline action maintains:
    the visited-set only grows (by appends), and create:-prefixed cache /
    texture / definition keys stay create:-prefixed. -/

def KeysOk (s : LoaderSt) : Prop :=
  (∀ k ∈ s.fetchedBlockModels.map Prod.fst, jsStartsWith k "create:" = true)
  ∧ (∀ k ∈ s.fetchedTextures.map Prod.fst, jsStartsWith k "create:" = true)
  ∧ (∀ k ∈ s.definitions.map Prod.fst, jsStartsWith k "create:" = true)

def MR (s s' : LoaderSt) : Prop :=
  s.visitedModels <+: s'.visitedModels ∧ (KeysOk s → KeysOk s')

theorem MR_rfl (s : LoaderSt) : MR s s := ⟨List.prefix_refl _, id⟩

theorem MR_trans {a b c : LoaderSt} (h1 : MR a b) (h2 : MR b c) : MR a c :=
  ⟨h1.1.trans h2.1, fun h => h2.2 (h1.2 h)⟩

def StRel (m : LoadM α) : Prop := ∀ s, MR s (m s).1

theorem LoadM_bind_apply (x : LoadM α) (f : α → LoadM β) (s : LoaderSt) :
    (x >>= f) s = match x s with
      | (s1, Except.ok a) => f a s1
      | (s1, Except.error e) => (s1, Except.error e) := rfl

theorem LoadM_pure_apply (a : α) (s : LoaderSt) : (pure a : LoadM α) s = (s, .ok a) := rfl

theorem strel_pure (a : α) : StRel (pure a : LoadM α) := fun _ => MR_rfl _

theorem strel_getSt : StRel getSt := fun _ => MR_rfl _

theorem strel_throw : StRel (throwJs : LoadM α) := fun _ => MR_rfl _

theorem strel_bind {x : LoadM α} {f : α → LoadM β}
    (hx : StRel x) (hf : ∀ a, StRel (f a)) : StRel (x >>= f) := by
  intro s
  rw [LoadM_bind_apply]
  cases hres : x s with
  | mk s1 r =>
    have h1 : MR s s1 := by have := hx s; rwa [hres] at this
    cases r with
    | ok a => exact MR_trans h1 (hf a s1)
    | error e => exact h1

theorem strel_modify {f : LoaderSt → LoaderSt} (h : ∀ s, MR s (f s)) :
    StRel (modifySt f) := fun s => h s

theorem strel_catch {x h : LoadM α} (hx : StRel x) (hh : StRel h) :
    StRel (catchJs x h) := by
  intro s
  rw [catchJs]
  cases hres : x s with
  | mk s1 r =>
    have h1 : MR s s1 := by have := hx s; rwa [hres] at this
    cases r with
    | ok a => exact h1
    | error e => exact MR_trans h1 (hh s1)

theorem strel_foldlM {f : β → α → LoadM β} (hf : ∀ b a, StRel (f b a)) :
    ∀ (l : List α) (b : β), StRel (l.foldlM f b) := by
  intro l
  induction l with
  | nil => intro b; exact strel_pure b
  | cons a rest ih =>
    intro b
    rw [List.foldlM_cons]
    exact strel_bind (hf b a) fun b' => ih b'

theorem strel_forEach {f : α → LoadM Unit} (hf : ∀ a, StRel (f a)) (l : List α) :
    StRel (forEachM l f) :=
  strel_foldlM (fun _ a => hf a) l ()

theorem MR_trace (s : LoaderSt) (t : List String) :
    MR s { s with trace := t } := ⟨List.prefix_refl _, id⟩

theorem strel_fetchState (P : Provider) (p : String) : StRel (fetchStateJson P p) :=
  fun s => MR_trace s _

theorem strel_fetchModel (P : Provider) (p : String) : StRel (fetchModelJson P p) :=
  fun s => MR_trace s _

theorem strel_fetchText (P : Provider) (p : String) : StRel (fetchTextM P p) :=
  fun s => MR_trace s _

theorem strel_fetchBlob (P : Provider) (p : String) : StRel (fetchBlobM P p) :=
  fun s => MR_trace s _

theorem prefix_setAdd (l : List String) (k : String) : l <+: setAdd l k := by
  rw [setAdd]
  split
  · exact List.prefix_refl _
  · exact ⟨[k], rfl⟩

theorem mapSet_keys_subset (m : List (String × α)) (k : String) (v : α) :
    ∀ k' ∈ (mapSet m k v).map Prod.fst, k' ∈ m.map Prod.fst ∨ k' = k := by
  intro k' hk'
  rw [mapSet] at hk'
  split at hk'
  · rw [List.map_map] at hk'
    obtain ⟨p, hp, hpe⟩ := List.mem_map.mp hk'
    by_cases hc : p.1 == k
    · right
      simp only [Function.comp, hc, if_true] at hpe
      exact hpe.symm
    · left
      simp only [Function.comp, hc, Bool.false_eq_true, if_false] at hpe
      exact List.mem_map.mpr ⟨p, hp, hpe⟩
  · rw [List.map_append] at hk'
    rcases List.mem_append.mp hk' with h | h
    · exact Or.inl h
    · right
      simpa using h

theorem jsStartsWith_append (p x : String) : jsStartsWith (p ++ x) p = true := by
  rw [jsStartsWith, String.data_append]
  exact List.isPrefixOf_iff_prefix.mpr (List.prefix_append _ _)

theorem MR_visited (s : LoaderSt) (k : String) :
    MR s { s with visitedModels := setAdd s.visitedModels k } :=
  ⟨prefix_setAdd _ _, id⟩

theorem MR_missing (s : LoaderSt) (k : String) :
    MR s { s with missingResources := setAdd s.missingResources k } :=
  ⟨List.prefix_refl _, id⟩

theorem MR_log (s : LoaderSt) (l : List AutoSubpartEntry) :
    MR s { s with autoSubpartLog := s.autoSubpartLog ++ l } :=
  ⟨List.prefix_refl _, id⟩

theorem MR_setModel (s : LoaderSt) (k : String) (v : RawBlockModel)
    (hk : jsStartsWith k "create:" = true) :
    MR s { s with fetchedBlockModels := mapSet s.fetchedBlockModels k v } := by
  refine ⟨List.prefix_refl _, fun h => ⟨?_, h.2.1, h.2.2⟩⟩
  intro k' hk'
  rcases mapSet_keys_subset _ _ _ k' hk' with hmem | heq
  · exact h.1 k' hmem
  · exact heq ▸ hk

theorem MR_setModel2 (s : LoaderSt) (k1 k2 : String) (v1 v2 : RawBlockModel)
    (h1 : jsStartsWith k1 "create:" = true) (h2 : jsStartsWith k2 "create:" = true) :
    MR s { s with fetchedBlockModels := mapSet (mapSet s.fetchedBlockModels k1 v1) k2 v2 } := by
  refine ⟨List.prefix_refl _, fun h => ⟨?_, h.2.1, h.2.2⟩⟩
  intro k' hk'
  rcases mapSet_keys_subset _ _ _ k' hk' with hmem | heq
  · rcases mapSet_keys_subset _ _ _ k' hmem with hmem' | heq'
    · exact h.1 k' hmem'
    · exact heq' ▸ h1
  · exact heq ▸ h2

theorem MR_setTexture (s : LoaderSt) (k : String) (v : Blob)
    (hk : jsStartsWith k "create:" = true) :
    MR s { s with fetchedTextures := mapSet s.fetchedTextures k v } := by
  refine ⟨List.prefix_refl _, fun h => ⟨h.1, ?_, h.2.2⟩⟩
  intro k' hk'
  rcases mapSet_keys_subset _ _ _ k' hk' with hmem | heq
  · exact h.2.1 k' hmem
  · exact heq ▸ hk

theorem MR_setDef (s : LoaderSt) (k : String) (v : BlockDefinition)
    (hk : jsStartsWith k "create:" = true) :
    MR s { s with definitions := mapSet s.definitions k v } := by
  refine ⟨List.prefix_refl _, fun h => ⟨h.1, h.2.1, ?_⟩⟩
  intro k' hk'
  rcases mapSet_keys_subset _ _ _ k' hk' with hmem | heq
  · exact h.2.2 k' hmem
  · exact heq ▸ hk

theorem strel_loadTexture_flow (P : Provider) (fuel : Nat) :
    (∀ p, StRel (loadTexture P fuel p)) ∧ (∀ p, StRel (loadFlowTextureForFluid P fuel p)) := by
  induction fuel with
  | zero => exact ⟨fun _ => strel_pure (), fun _ => strel_pure ()⟩
  | succ n ih =>
    constructor
    · intro p
      simp only [loadTexture]
      split
      · exact strel_pure ()
      · next hguard =>
        have hcp : jsStartsWith (normalizePath p) "create:" = true := by
          simpa using hguard
        refine strel_bind strel_getSt fun s0 => ?_
        split
        · exact strel_pure ()
        · refine strel_bind (strel_fetchBlob P _) fun blob? => ?_
          cases blob? with
          | some blob =>
            exact strel_bind (strel_modify fun s => MR_setTexture s _ blob hcp)
              fun _ => ih.2 _
          | none => exact strel_modify fun s => MR_missing s _
    · intro p
      simp only [loadFlowTextureForFluid]
      split
      · exact strel_pure ()
      · refine strel_bind strel_getSt fun s0 => ?_
        split
        · exact strel_pure ()
        · exact ih.1 _

theorem strel_loadTexture (P : Provider) (fuel : Nat) (p : String) :
    StRel (loadTexture P fuel p) := (strel_loadTexture_flow P fuel).1 p

theorem strel_texLoop (cfg : Config) (fuel : Nat) (tex : List (String × String)) :
    StRel (forEachM tex (fun kv =>
      if !kv.2.isEmpty && !jsStartsWith kv.2 "#" then loadTexture cfg.provider fuel kv.2
      else pure ())) := by
  refine strel_forEach (fun kv => ?_) tex
  split
  · exact strel_loadTexture _ _ _
  · exact strel_pure ()

theorem strel_objBranch (cfg : Config) (fuel : Nat) (cleanPath : String)
    (modelJson : RawBlockModel) : StRel (objBranch cfg fuel cleanPath modelJson) := by
  simp only [objBranch]
  split
  · exact strel_pure _
  · split
    · exact strel_pure _
    · refine strel_bind (strel_fetchText _ _) fun objText? => ?_
      split
      · split
        · exact strel_throw
        · refine strel_bind strel_getSt fun s0 => ?_
          exact strel_bind (strel_texLoop cfg fuel _) fun _ => strel_pure _
      · exact strel_pure _

theorem strel_patchKineticPosesF {loadRec : String → LoadM Unit}
    (hrec : ∀ p, StRel (loadRec p)) (modelJson : RawBlockModel) (cleanPath : String) :
    StRel (patchKineticPosesF loadRec modelJson cleanPath) := by
  simp only [patchKineticPosesF]
  split
  · refine strel_bind (hrec _) fun _ => ?_
    refine strel_bind strel_getSt fun s0 => ?_
    split
    · exact strel_pure _
    · refine strel_bind ?_ fun _ => strel_pure _
      split
      · exact strel_modify fun s => MR_setModel s _ _ (by decide)
      · exact strel_pure ()
  · exact strel_pure _

theorem strel_ensureFactoryGaugeF {loadRec : String → LoadM Unit}
    (hrec : ∀ p, StRel (loadRec p)) (modelJson : RawBlockModel) (cleanPath : String) :
    StRel (ensureFactoryGaugeF loadRec modelJson cleanPath) := by
  simp only [ensureFactoryGaugeF]
  split
  · exact strel_pure _
  · split
    · exact strel_pure _
    · refine strel_bind (hrec _) fun _ => ?_
      refine strel_bind strel_getSt fun s0 => ?_
      split
      · exact strel_pure _
      · split
        · exact strel_pure _
        · split
          · exact strel_pure _
          · exact strel_pure _

theorem strel_loadFetchedModelF (cfg : Config) (fuel : Nat)
    {loadRec : String → LoadM Unit} (hrec : ∀ p, StRel (loadRec p))
    (cleanPath : String) (modelJson0 : RawBlockModel)
    (hcp : jsStartsWith cleanPath "create:" = true) :
    StRel (loadFetchedModelF cfg fuel loadRec cleanPath modelJson0) := by
  simp only [loadFetchedModelF]
  split
  · refine strel_bind (hrec _) fun _ => ?_
    split
    · refine strel_bind (strel_objBranch cfg fuel cleanPath modelJson0) fun y => ?_
      refine strel_bind ?_ fun _ => ?_
      · split
        · exact hrec _
        · exact strel_pure ()
      · split
        · exact strel_throw
        · refine strel_bind strel_getSt fun s0 => ?_
          refine strel_bind (strel_patchKineticPosesF hrec _ _) fun m5 => ?_
          refine strel_bind (strel_ensureFactoryGaugeF hrec _ _) fun m7 => ?_
          refine strel_bind (strel_modify fun s => MR_setModel s _ _ hcp) fun _ => ?_
          exact strel_texLoop cfg fuel _
    · refine strel_bind (strel_pure modelJson0) fun y => ?_
      refine strel_bind ?_ fun _ => ?_
      · split
        · exact hrec _
        · exact strel_pure ()
      · split
        · exact strel_throw
        · refine strel_bind strel_getSt fun s0 => ?_
          refine strel_bind (strel_patchKineticPosesF hrec _ _) fun m5 => ?_
          refine strel_bind (strel_ensureFactoryGaugeF hrec _ _) fun m7 => ?_
          refine strel_bind (strel_modify fun s => MR_setModel s _ _ hcp) fun _ => ?_
          exact strel_texLoop cfg fuel _
  · refine strel_bind (strel_pure ()) fun _ => ?_
    split
    · refine strel_bind (strel_objBranch cfg fuel cleanPath modelJson0) fun y => ?_
      refine strel_bind ?_ fun _ => ?_
      · split
        · exact hrec _
        · exact strel_pure ()
      · split
        · exact strel_throw
        · refine strel_bind strel_getSt fun s0 => ?_
          refine strel_bind (strel_patchKineticPosesF hrec _ _) fun m5 => ?_
          refine strel_bind (strel_ensureFactoryGaugeF hrec _ _) fun m7 => ?_
          refine strel_bind (strel_modify fun s => MR_setModel s _ _ hcp) fun _ => ?_
          exact strel_texLoop cfg fuel _
    · refine strel_bind (strel_pure modelJson0) fun y => ?_
      refine strel_bind ?_ fun _ => ?_
      · split
        · exact hrec _
        · exact strel_pure ()
      · split
        · exact strel_throw
        · refine strel_bind strel_getSt fun s0 => ?_
          refine strel_bind (strel_patchKineticPosesF hrec _ _) fun m5 => ?_
          refine strel_bind (strel_ensureFactoryGaugeF hrec _ _) fun m7 => ?_
          refine strel_bind (strel_modify fun s => MR_setModel s _ _ hcp) fun _ => ?_
          exact strel_texLoop cfg fuel _

theorem strel_missingModelBranchF (cfg : Config) (fuel : Nat)
    {loadRec : String → LoadM Unit} (hrec : ∀ p, StRel (loadRec p))
    (cleanPath : String) (hcp : jsStartsWith cleanPath "create:" = true) :
    StRel (missingModelBranchF cfg fuel loadRec cleanPath) := by
  simp only [missingModelBranchF]
  split
  · refine strel_bind (strel_modify fun s => MR_setModel s _ _ hcp) fun _ => ?_
    refine strel_bind ?_ fun _ => strel_texLoop cfg fuel _
    split
    · exact hrec _
    · exact strel_pure ()
  · split
    · refine strel_bind (strel_fetchModel _ _) fun fb? => ?_
      split
      · refine strel_bind (strel_modify fun s => MR_setModel s _ _ hcp) fun _ => ?_
        refine strel_bind ?_ fun _ => strel_texLoop cfg fuel _
        split
        · exact hrec _
        · exact strel_pure ()
      · exact strel_modify fun s => MR_missing s _
    · exact strel_modify fun s => MR_missing s _

theorem strel_loadModelRec (cfg : Config) (fuel : Nat) :
    ∀ p, StRel (loadModelRec cfg fuel p) := by
  induction fuel with
  | zero => exact fun _ => strel_pure ()
  | succ n ih =>
    intro p
    simp only [loadModelRec]
    refine strel_bind strel_getSt fun s0 => ?_
    split
    · exact strel_pure ()
    · split
      · exact strel_modify fun s => MR_visited s _
      · refine strel_bind (strel_modify fun s => MR_visited s _) fun _ => ?_
        split
        · exact strel_pure ()
        · next hguard =>
          have hcp : jsStartsWith (normalizePath p) "create:" = true := by
            simpa using hguard
          refine strel_bind (strel_fetchModel _ _) fun modelJson? => ?_
          split
          · exact strel_loadFetchedModelF cfg n ih _ _ hcp
          · exact strel_missingModelBranchF cfg n ih _ hcp

theorem strel_ensureSpoutNozzlesM (cfg : Config) (fuel : Nat) :
    StRel (ensureSpoutNozzlesM cfg fuel) :=
  strel_forEach (fun p => strel_loadModelRec cfg fuel p) spoutNozzles

theorem strel_preloadSubpartModels (cfg : Config) (fuel : Nat) (modelPaths : List String) :
    StRel (preloadSubpartModels cfg fuel modelPaths) := by
  simp only [preloadSubpartModels]
  refine strel_bind (strel_foldlM ?_ modelPaths []) fun _ => strel_pure ()
  intro queued mdl
  refine strel_foldlM ?_ _ queued
  intro q candidate
  split
  · exact strel_pure q
  · exact strel_bind (strel_loadModelRec cfg fuel candidate) fun _ => strel_pure _

theorem strel_injectMechanicalCrafterGears (cfg : Config) (fuel : Nat)
    (def0 : RawBlockState) : StRel (injectMechanicalCrafterGears cfg fuel def0) := by
  simp only [injectMechanicalCrafterGears]
  split
  · exact strel_pure def0
  · refine strel_bind (strel_loadModelRec cfg fuel _) fun _ => ?_
    refine strel_bind strel_getSt fun s0 => ?_
    split
    · exact strel_pure def0
    · split
      · exact strel_pure def0
      · split
        · exact strel_pure def0
        · refine strel_bind
            (strel_modify fun s => MR_setModel2 s _ _ _ _ (by decide) (by decide))
            fun _ => strel_pure _

theorem strel_injectMechanicalArmCog (cfg : Config) (fuel : Nat)
    (def0 : RawBlockState) : StRel (injectMechanicalArmCog cfg fuel def0) := by
  simp only [injectMechanicalArmCog]
  split
  · exact strel_pure def0
  · refine strel_bind (strel_loadModelRec cfg fuel _) fun _ => ?_
    refine strel_bind strel_getSt fun s0 => ?_
    split
    · exact strel_pure def0
    · split
      · exact strel_pure def0
      · refine strel_bind ?_ fun _ => strel_pure _
        split
        · exact strel_modify fun s => MR_setModel s _ _ (by decide)
        · exact strel_pure ()

theorem strel_loadBlockBody (cfg : Config) (fuel : Nat) (id : String)
    (hid : jsStartsWith id "create:" = true) : StRel (loadBlockBody cfg fuel id) := by
  simp only [loadBlockBody]
  refine strel_bind (strel_fetchState _ _) fun defJson? => ?_
  split
  · exact strel_modify fun s => MR_missing s _
  · split
    · refine strel_bind (strel_injectMechanicalCrafterGears cfg fuel _) fun y => ?_
      refine strel_bind ?_ fun _ => ?_
      · split
        · exact strel_ensureSpoutNozzlesM cfg fuel
        · exact strel_pure ()
      · refine strel_bind ?_ fun _ => ?_
        · split
          · exact strel_loadModelRec cfg fuel _
          · exact strel_pure ()
        · split
          · refine strel_bind (strel_preloadSubpartModels cfg fuel _) fun _ => ?_
            refine strel_bind strel_getSt fun s0 => ?_
            refine strel_bind (strel_modify fun s => MR_log s _) fun _ => ?_
            refine strel_bind (strel_pure _) fun y2 => ?_
            refine strel_bind (strel_modify fun s => MR_setDef s _ _ hid) fun _ => ?_
            refine strel_bind (strel_forEach (fun m => strel_loadModelRec cfg fuel m) _) fun _ => ?_
            exact strel_forEach (fun m => strel_loadModelRec cfg fuel m) _
          · refine strel_bind (strel_pure _) fun y2 => ?_
            refine strel_bind (strel_modify fun s => MR_setDef s _ _ hid) fun _ => ?_
            refine strel_bind (strel_forEach (fun m => strel_loadModelRec cfg fuel m) _) fun _ => ?_
            exact strel_forEach (fun m => strel_loadModelRec cfg fuel m) _
    · split
      · refine strel_bind (strel_injectMechanicalArmCog cfg fuel _) fun y => ?_
        refine strel_bind ?_ fun _ => ?_
        · split
          · exact strel_ensureSpoutNozzlesM cfg fuel
          · exact strel_pure ()
        · refine strel_bind ?_ fun _ => ?_
          · split
            · exact strel_loadModelRec cfg fuel _
            · exact strel_pure ()
          · split
            · refine strel_bind (strel_preloadSubpartModels cfg fuel _) fun _ => ?_
              refine strel_bind strel_getSt fun s0 => ?_
              refine strel_bind (strel_modify fun s => MR_log s _) fun _ => ?_
              refine strel_bind (strel_pure _) fun y2 => ?_
              refine strel_bind (strel_modify fun s => MR_setDef s _ _ hid) fun _ => ?_
              refine strel_bind (strel_forEach (fun m => strel_loadModelRec cfg fuel m) _) fun _ => ?_
              exact strel_forEach (fun m => strel_loadModelRec cfg fuel m) _
            · refine strel_bind (strel_pure _) fun y2 => ?_
              refine strel_bind (strel_modify fun s => MR_setDef s _ _ hid) fun _ => ?_
              refine strel_bind (strel_forEach (fun m => strel_loadModelRec cfg fuel m) _) fun _ => ?_
              exact strel_forEach (fun m => strel_loadModelRec cfg fuel m) _
      · refine strel_bind (strel_pure _) fun y => ?_
        refine strel_bind ?_ fun _ => ?_
        · split
          · exact strel_ensureSpoutNozzlesM cfg fuel
          · exact strel_pure ()
        · refine strel_bind ?_ fun _ => ?_
          · split
            · exact strel_loadModelRec cfg fuel _
            · exact strel_pure ()
          · split
            · refine strel_bind (strel_preloadSubpartModels cfg fuel _) fun _ => ?_
              refine strel_bind strel_getSt fun s0 => ?_
              refine strel_bind (strel_modify fun s => MR_log s _) fun _ => ?_
              refine strel_bind (strel_pure _) fun y2 => ?_
              refine strel_bind (strel_modify fun s => MR_setDef s _ _ hid) fun _ => ?_
              refine strel_bind (strel_forEach (fun m => strel_loadModelRec cfg fuel m) _) fun _ => ?_
              exact strel_forEach (fun m => strel_loadModelRec cfg fuel m) _
            · refine strel_bind (strel_pure _) fun y2 => ?_
              refine strel_bind (strel_modify fun s => MR_setDef s _ _ hid) fun _ => ?_
              refine strel_bind (strel_forEach (fun m => strel_loadModelRec cfg fuel m) _) fun _ => ?_
              exact strel_forEach (fun m => strel_loadModelRec cfg fuel m) _

theorem strel_loadBlockOne (cfg : Config) (fuel : Nat) (id : String) :
    StRel (loadBlockOne cfg fuel id) := by
  rw [loadBlockOne]
  split
  · exact strel_pure ()
  · next hguard =>
    have hid : jsStartsWith id "create:" = true := by simpa using hguard
    exact strel_catch (strel_loadBlockBody cfg fuel id hid) (strel_pure ())

theorem strel_loadBlocksLoop (cfg : Config) (fuel : Nat) (ids : List String) :
    StRel (loadBlocksLoop cfg fuel ids) :=
  strel_forEach (fun id => strel_loadBlockOne cfg fuel id) ids

theorem finalizeModels_keys (f : List (String × RawBlockModel))
    (hf : ∀ k ∈ f.map Prod.fst, jsStartsWith k "create:" = true) :
    ∀ k' ∈ (finalizeModels f).1.map Prod.fst, jsStartsWith k' "create:" = true := by
  rw [finalizeModels]
  suffices haux : ∀ (l : List (String × RawBlockModel))
      (acc : List (String × BlockModel) × List (String × RawBlockModel)),
      (∀ k ∈ l.map Prod.fst, jsStartsWith k "create:" = true) →
      (∀ k ∈ acc.1.map Prod.fst, jsStartsWith k "create:" = true) →
      ∀ k' ∈ (l.foldl (fun acc kv =>
        let modelId := if jsIncludes kv.1 ":" then kv.1 else "create:" ++ kv.1
        let json :=
          if jsStartsWith modelId "create:block/fluid_pipe/" then
            patchPipeModelLimbs (patchPipeCoreFaces kv.2) modelId
          else kv.2
        (mapSet acc.1 modelId ⟨json⟩, mapSet acc.2 kv.1 json)) acc).1.map Prod.fst,
        jsStartsWith k' "create:" = true by
    exact haux f ([], []) hf (by simp)
  intro l
  induction l with
  | nil => intro acc _ hacc; simpa using hacc
  | cons kv rest ih =>
    intro acc hl hacc
    simp only [List.foldl_cons]
    refine ih _ (fun k hk => hl k (by simp at hk ⊢; exact Or.inr hk)) ?_
    intro k hk
    rcases mapSet_keys_subset _ _ _ k hk with hmem | heq
    · exact hacc k hmem
    · subst heq
      by_cases hc : jsIncludes kv.1 ":" = true
      · rw [if_pos hc]
        exact hl kv.1 (by simp)
      · rw [if_neg (by simp [hc])]
        exact jsStartsWith_append "create:" kv.1

theorem loadBlockOne_skip (cfg : Config) (fuel : Nat) (id : String)
    (h : jsStartsWith id "create:" = false) :
    loadBlockOne cfg fuel id = pure () := by
  rw [loadBlockOne, h]
  rfl

theorem loadBlocksLoop_filter (cfg : Config) (fuel : Nat) :
    ∀ (ids : List String) (s : LoaderSt),
      loadBlocksLoop cfg fuel (ids.filter fun id => jsStartsWith id "create:") s
        = loadBlocksLoop cfg fuel ids s := by
  intro ids
  induction ids with
  | nil => intro s; rfl
  | cons id rest ih =>
    intro s
    by_cases h : jsStartsWith id "create:" = true
    · simp only [List.filter_cons, h, if_true]
      rw [loadBlocksLoop, loadBlocksLoop, forEachM, forEachM, List.foldlM_cons,
        List.foldlM_cons]
      rw [LoadM_bind_apply, LoadM_bind_apply]
      cases hres : loadBlockOne cfg fuel id s with
      | mk s1 r =>
        cases r with
        | ok a =>
          cases a
          exact ih s1
        | error e => rfl
    · have h' : jsStartsWith id "create:" = false := by simpa using h
      simp only [List.filter_cons, h', Bool.false_eq_true, if_false]
      rw [ih s]
      conv_rhs => rw [loadBlocksLoop, forEachM, List.foldlM_cons,
        loadBlockOne_skip cfg fuel id h']
      rfl

/-- C10: starting from a fresh loader state, every key of the returned
    `blockDefinitions`, `blockModels` and `textures` maps starts with
    `create:`, and ids of any other namespace are skipped entirely —
    running `loadBlocks` on only the `create:`-prefixed ids yields exactly
    the same assets and the same final state (so a non-`create:` id
    contributes no definition, no model, no texture, and no
    missing-resource entry). -/
theorem loadBlocks_create_namespace (cfg : Config) (fuel : Nat) (blockIds : List String) :
    (∀ k ∈ (loadBlocks cfg fuel blockIds emptySt).1.blockDefinitions.map Prod.fst,
      jsStartsWith k "create:" = true)
    ∧ (∀ k ∈ (loadBlocks cfg fuel blockIds emptySt).1.blockModels.map Prod.fst,
      jsStartsWith k "create:" = true)
    ∧ (∀ k ∈ (loadBlocks cfg fuel blockIds emptySt).1.textures.map Prod.fst,
      jsStartsWith k "create:" = true)
    ∧ loadBlocks cfg fuel (blockIds.filter fun id => jsStartsWith id "create:") emptySt
        = loadBlocks cfg fuel blockIds emptySt := by
  have h0 : KeysOk emptySt := ⟨by simp [emptySt], by simp [emptySt], by simp [emptySt]⟩
  have hko : KeysOk ((loadBlocksLoop cfg fuel blockIds emptySt).1) :=
    (strel_loadBlocksLoop cfg fuel blockIds emptySt).2 h0
  refine ⟨hko.2.2, ?_, hko.2.1, ?_⟩
  · exact finalizeModels_keys _ hko.1
  · simp only [loadBlocks]
    rw [loadBlocksLoop_filter cfg fuel blockIds emptySt]

theorem mem_of_contains {l : List String} {k : String} (h : l.contains k = true) : k ∈ l := by
  simpa using h

theorem contains_of_mem {l : List String} {k : String} (h : k ∈ l) : l.contains k = true := by
  simpa using h

theorem setAdd_mem_self (l : List String) (k : String) : k ∈ setAdd l k := by
  rw [setAdd]
  split
  · next h => exact mem_of_contains h
  · exact List.mem_append_right l (List.mem_singleton.mpr rfl)

theorem loadModelRec_visited (cfg : Config) (fuel : Nat) (p : String) (s : LoaderSt) :
    normalizePath p ∈ ((loadModelRec cfg (fuel + 1) p) s).1.visitedModels := by
  simp only [loadModelRec, LoadM_bind_apply, getSt]
  by_cases hc : s.visitedModels.contains (normalizePath p) = true
  · rw [if_pos hc]
    exact mem_of_contains hc
  · rw [if_neg hc]
    by_cases hh : mapHas s.fetchedBlockModels (normalizePath p) = true
    · rw [if_pos hh]
      simp only [modifySt]
      exact setAdd_mem_self _ _
    · rw [if_neg hh]
      simp only [LoadM_bind_apply, modifySt]
      by_cases hcr : (!jsStartsWith (normalizePath p) "create:") = true
      · rw [if_pos hcr]
        simp only [LoadM_pure_apply]
        exact setAdd_mem_self _ _
      · rw [if_neg hcr]
        have hcp : jsStartsWith (normalizePath p) "create:" = true := by simpa using hcr
        simp only [LoadM_bind_apply, fetchModelJson]
        cases hm : cfg.provider.models
            ("models/" ++ jsReplaceFirst (normalizePath p) "create:" "" ++ ".json") with
        | some m =>
          refine List.IsPrefix.subset ?_ (setAdd_mem_self s.visitedModels (normalizePath p))
          have h1 := (strel_loadFetchedModelF cfg fuel (strel_loadModelRec cfg fuel) (normalizePath p) m hcp { s with visitedModels := setAdd s.visitedModels (normalizePath p), trace := s.trace ++ ["models/" ++ jsReplaceFirst (normalizePath p) "create:" "" ++ ".json"] }).1
          exact h1
        | none =>
          refine List.IsPrefix.subset ?_ (setAdd_mem_self s.visitedModels (normalizePath p))
          have h1 := (strel_missingModelBranchF cfg fuel (strel_loadModelRec cfg fuel) (normalizePath p) hcp { s with visitedModels := setAdd s.visitedModels (normalizePath p), trace := s.trace ++ ["models/" ++ jsReplaceFirst (normalizePath p) "create:" "" ++ ".json"] }).1
          exact h1

theorem loadModelRec_visited_noop (cfg : Config) (fuel : Nat) (p : String) (s : LoaderSt)
    (h : s.visitedModels.contains (normalizePath p) = true) :
    loadModelRec cfg (fuel + 1) p s = (s, Except.ok ()) := by
  simp only [loadModelRec, LoadM_bind_apply, getSt]
  rw [if_pos h]
  rfl

/-- C2: within one resolver state, a second `loadModelRecursive` call on the
    same (normalized) model id is a complete no-op — it returns successfully
    with the state of the first call unchanged (so the visited-set, the model
    cache, the texture cache and the missing-resource set are untouched), its
    trace is unchanged (no provider fetch is performed), and the cached object
    it observes under the normalized id is the identical one left by the first
    call. -/
theorem loadModelRec_memoized (cfg : Config) (fuelA fuelB : Nat) (modelPath : String)
    (s : LoaderSt) :
    loadModelRec cfg (fuelB + 1) modelPath ((loadModelRec cfg (fuelA + 1) modelPath s).1)
        = ((loadModelRec cfg (fuelA + 1) modelPath s).1, Except.ok ())
    ∧ (loadModelRec cfg (fuelB + 1) modelPath
        ((loadModelRec cfg (fuelA + 1) modelPath s).1)).1.trace
        = ((loadModelRec cfg (fuelA + 1) modelPath s).1).trace
    ∧ mapGet? (loadModelRec cfg (fuelB + 1) modelPath
        ((loadModelRec cfg (fuelA + 1) modelPath s).1)).1.fetchedBlockModels
        (normalizePath modelPath)
        = mapGet? ((loadModelRec cfg (fuelA + 1) modelPath s).1).fetchedBlockModels
        (normalizePath modelPath) := by
  have h := loadModelRec_visited_noop cfg fuelB modelPath
    ((loadModelRec cfg (fuelA + 1) modelPath s).1)
    (contains_of_mem (loadModelRec_visited cfg fuelA modelPath s))
  exact ⟨h, by rw [h], by rw [h]⟩

/-- C3: for a `create:`-namespace model id that is not yet visited or cached,
    whose file the provider does not have, that is not in the funnel fallback
    family and does not contain `smart_`, `loadModelRecursive` returns
    successfully (no exception escapes), caches no model, leaves the texture
    cache untouched, and appends exactly one `Model: <id>` entry to the
    missing-resource set (the only other state changes being the visited-set
    mark and the one recorded fetch attempt). -/
theorem loadModelRec_missing_nonfatal (cfg : Config) (fuel : Nat) (modelPath : String)
    (s : LoaderSt)
    (hnv : s.visitedModels.contains (normalizePath modelPath) = false)
    (hnf : mapHas s.fetchedBlockModels (normalizePath modelPath) = false)
    (hcr : jsStartsWith (normalizePath modelPath) "create:" = true)
    (hprov : cfg.provider.models
      ("models/" ++ jsReplaceFirst (normalizePath modelPath) "create:" "" ++ ".json") = none)
    (hfam : buildFunnelFallback (normalizePath modelPath) = none)
    (hsmart : jsIncludes (normalizePath modelPath) "smart_" = false)
    (hmiss : s.missingResources.contains ("Model: " ++ normalizePath modelPath) = false) :
    loadModelRec cfg (fuel + 1) modelPath s
      = ({ s with visitedModels := s.visitedModels ++ [normalizePath modelPath], missingResources := s.missingResources ++ ["Model: " ++ normalizePath modelPath], trace := s.trace ++ ["models/" ++ jsReplaceFirst (normalizePath modelPath) "create:" "" ++ ".json"] }, Except.ok ()) := by
  simp only [loadModelRec, LoadM_bind_apply, getSt]
  rw [if_neg (by rw [hnv]; exact Bool.false_ne_true)]
  rw [if_neg (by rw [hnf]; exact Bool.false_ne_true)]
  simp only [LoadM_bind_apply, modifySt]
  rw [if_neg (by rw [hcr]; decide)]
  simp only [LoadM_bind_apply, fetchModelJson]
  rw [hprov]
  simp only [missingModelBranchF]
  rw [hfam]
  rw [if_neg (by rw [hsmart]; decide)]
  simp only [modifySt]
  rw [setAdd, if_neg (by rw [hnv]; exact Bool.false_ne_true)]
  rw [setAdd, if_neg (by rw [hmiss]; exact Bool.false_ne_true)]

def noneProvider : Provider := ⟨fun _ => none, fun _ => none, fun _ => none, fun _ => none⟩

def cfgNone : Config := ⟨noneProvider, false, []⟩

theorem loadModelRec_missing_nonfatal_witness :
    loadModelRec cfgNone 1 "create:block/thing" emptySt
      = ({ emptySt with visitedModels := ["create:block/thing"], missingResources := ["Model: create:block/thing"], trace := ["models/block/thing.json"] }, Except.ok ()) :=
  loadModelRec_missing_nonfatal cfgNone 0 "create:block/thing" emptySt rfl rfl
    (by decide) rfl rfl (by decide) rfl

end SchemLoader
